/-
Verification of the VentureLens pipeline orchestration engine.

This file gives a shallow embedding, in Lean 4, of the core components of the
VentureLens due-diligence pipeline (src/state.py, src/graph.py,
src/agents/base.py, src/agents/prescreen.py, the four DD agents,
src/agents/bp_parser.py, src/agents/cross_check.py,
src/report/report_generator.py, src/services/toolkit.py and
src/services/llm_inference_simple.py), together with theorems settling the
frozen claims about that code.

Modelling conventions:
* Python dicts with string keys are modelled as association lists
  (`List (String × α)`) with Python's insertion-order update semantics.
* Python floats are modelled as rationals (`ℚ`).
* `datetime` instants are modelled as a record of calendar fields;
  `isoformat`/`fromisoformat` are implemented concretely and proved to be
  mutually inverse on valid instants.
* Effectful collaborators (the LLM completion service, web search, report
  text formatting, `json.dumps`) are supplied as explicit environment
  parameters; the control flow around them is translated from the source.
* Opaque JSON payloads are modelled with the `JValue` inductive.
-/
import Mathlib

namespace VentureLens

/-! ## JSON values (opaque payloads and `json` module modelling) -/

/-- A JSON value, used to model opaque Python dict/list payloads. -/
inductive JValue where
  | jnull : JValue
  | jbool : Bool → JValue
  | jnum : ℚ → JValue
  | jstr : String → JValue
  | jarr : List JValue → JValue
  | jobj : List (String × JValue) → JValue
deriving Repr

/-! ## Association lists with Python-dict semantics

Python dicts keep insertion order; assigning to an existing key keeps its
position, assigning to a new key appends it at the end. -/

/-- Models `d[k]` lookup returning `none` when the key is absent. -/
def alGet? {α : Type} (l : List (String × α)) (k : String) : Option α :=
  match l with
  | [] => none
  | (k', v) :: t => if k' = k then some v else alGet? t k

/-- Models `d[k] = v` assignment with Python-dict ordering semantics. -/
def alSet {α : Type} (l : List (String × α)) (k : String) (v : α) :
    List (String × α) :=
  match l with
  | [] => [(k, v)]
  | (k', v') :: t => if k' = k then (k, v) :: t else (k', v') :: alSet t k v

/-- Models `d.update(u)`: assign every binding of `u` into `d`, in order. -/
def alUpdate {α : Type} (d u : List (String × α)) : List (String × α) :=
  u.foldl (fun acc kv => alSet acc kv.1 kv.2) d

theorem alGet?_alSet_self {α : Type} (l : List (String × α)) (k : String)
    (v : α) : alGet? (alSet l k v) k = some v := by
  induction l with
  | nil => simp [alSet, alGet?]
  | cons h t ih =>
    by_cases hk : h.1 = k
    · simp [alSet, hk, alGet?]
    · simp [alSet, hk, alGet?, ih]

theorem alGet?_alSet_ne {α : Type} (l : List (String × α)) (k k' : String)
    (v : α) (h : k' ≠ k) : alGet? (alSet l k' v) k = alGet? l k := by
  induction l with
  | nil => simp [alSet, alGet?, h]
  | cons hd t ih =>
    by_cases hk : hd.1 = k'
    · simp [alSet, hk, alGet?, h]
    · simp only [alSet, hk, if_false]
      by_cases hk2 : hd.1 = k
      · simp [alGet?, hk2]
      · simp [alGet?, hk2, ih]

/-! ## Python truthiness helpers -/

/-- Truthiness of an optional string (`None` and `""` are falsy). -/
def pyTruthyOptStr : Option String → Bool
  | none => false
  | some s => s ≠ ""

/-- Truthiness of an optional-string argument such as `bp_file_path`. -/
def pyFalsyOptStr (o : Option String) : Bool := !pyTruthyOptStr o

/-! ## `datetime` instants and ISO-8601 formatting

Models the fields of a Python `datetime` and the `isoformat` /
`fromisoformat` pair used by the checkpoint store (src/graph.py). -/

structure PyDatetime where
  year : Nat
  month : Nat
  day : Nat
  hour : Nat
  minute : Nat
  second : Nat
  microsecond : Nat
deriving DecidableEq, Repr

/-- Python `datetime` field invariants (as enforced by its constructor). -/
def ValidPyDatetime (d : PyDatetime) : Prop :=
  1 ≤ d.year ∧ d.year ≤ 9999 ∧ 1 ≤ d.month ∧ d.month ≤ 12 ∧
  1 ≤ d.day ∧ d.day ≤ 31 ∧ d.hour ≤ 23 ∧ d.minute ≤ 59 ∧
  d.second ≤ 59 ∧ d.microsecond ≤ 999999

instance (d : PyDatetime) : Decidable (ValidPyDatetime d) := by
  unfold ValidPyDatetime; infer_instance

/-- The decimal digit character for `n % 10`-style values. -/
def digitChar : Nat → Char
  | 0 => '0' | 1 => '1' | 2 => '2' | 3 => '3' | 4 => '4'
  | 5 => '5' | 6 => '6' | 7 => '7' | 8 => '8' | _ => '9'

/-- Reads one decimal digit character (code points 48 through 57). -/
def readDigit (c : Char) : Option Nat :=
  if 48 ≤ c.toNat ∧ c.toNat ≤ 57 then some (c.toNat - 48) else none

theorem readDigit_digitChar (d : Nat) (h : d < 10) :
    readDigit (digitChar d) = some d := by
  interval_cases d <;> decide

/-- Zero-padded fixed-width decimal numeral, most significant digit first. -/
def padNum : Nat → Nat → List Char
  | 0, _ => []
  | w + 1, v => digitChar (v / 10 ^ w) :: padNum w (v % 10 ^ w)

/-- Reads exactly `w` decimal digits, accumulating into `acc`. -/
def readNum : Nat → Nat → List Char → Option (Nat × List Char)
  | 0, acc, l => some (acc, l)
  | _ + 1, _, [] => none
  | w + 1, acc, c :: l =>
    match readDigit c with
    | some d => readNum w (acc * 10 + d) l
    | none => none

theorem readNum_padNum :
    ∀ (w acc v : Nat) (rest : List Char), v < 10 ^ w →
      readNum w acc (padNum w v ++ rest) = some (acc * 10 ^ w + v, rest) := by
  intro w
  induction w with
  | zero =>
    intro acc v rest h
    have hv : v = 0 := by omega
    subst hv
    simp [padNum, readNum]
  | succ w ih =>
    intro acc v rest h
    have hpow : (0 : Nat) < 10 ^ w := Nat.pos_pow_of_pos w (by omega)
    have hd : v / 10 ^ w < 10 := by
      have h1 : v < 10 ^ w * 10 := by
        have : 10 ^ (w + 1) = 10 ^ w * 10 := pow_succ 10 w
        omega
      exact Nat.div_lt_of_lt_mul (by omega)
    have hrec := ih (acc * 10 + v / 10 ^ w) (v % 10 ^ w) rest
      (Nat.mod_lt _ hpow)
    have harith : (acc * 10 + v / 10 ^ w) * 10 ^ w + v % 10 ^ w
        = acc * 10 ^ (w + 1) + v := by
      have hdm : 10 ^ w * (v / 10 ^ w) + v % 10 ^ w = v := Nat.div_add_mod v _
      have hps : 10 ^ (w + 1) = 10 ^ w * 10 := pow_succ 10 w
      calc (acc * 10 + v / 10 ^ w) * 10 ^ w + v % 10 ^ w
          = acc * (10 ^ w * 10) + (10 ^ w * (v / 10 ^ w) + v % 10 ^ w) := by
            ring
        _ = acc * 10 ^ (w + 1) + v := by rw [hdm, hps]
    rw [harith] at hrec
    simp only [padNum, List.cons_append, readNum, readDigit_digitChar _ hd,
      List.append_eq]
    exact hrec

/-- Expects a specific separator character. -/
def expectChar (c : Char) : List Char → Option (List Char)
  | [] => none
  | d :: l => if d = c then some l else none

/-- Reads a fixed-width numeral followed by a separator character. -/
def readNumSep (w : Nat) (c : Char) (l : List Char) :
    Option (Nat × List Char) :=
  match readNum w 0 l with
  | none => none
  | some (v, l) =>
    match expectChar c l with
    | none => none
    | some l2 => some (v, l2)

theorem readNum0_padNum (w v : Nat) (rest : List Char) (h : v < 10 ^ w) :
    readNum w 0 (padNum w v ++ rest) = some (v, rest) := by
  rw [readNum_padNum w 0 v rest h, Nat.zero_mul, Nat.zero_add]

theorem readNumSep_padNum (w v : Nat) (c : Char) (rest : List Char)
    (h : v < 10 ^ w) :
    readNumSep w c (padNum w v ++ c :: rest) = some (v, rest) := by
  rw [readNumSep, readNum0_padNum w v _ h]
  simp [expectChar]

/-- The character list of `datetime.isoformat()`: the microsecond part is
omitted when it is zero, exactly as in Python. -/
def isoChars (d : PyDatetime) : List Char :=
  padNum 4 d.year ++ '-' ::
    (padNum 2 d.month ++ '-' ::
      (padNum 2 d.day ++ 'T' ::
        (padNum 2 d.hour ++ ':' ::
          (padNum 2 d.minute ++ ':' ::
            (padNum 2 d.second ++
              (if d.microsecond = 0 then []
               else '.' :: padNum 6 d.microsecond))))))

/-- Models `datetime.isoformat()`. -/
def isoformat (d : PyDatetime) : String := String.mk (isoChars d)

/-- Models `datetime.fromisoformat` on the character list, accepting exactly the
shapes `isoformat` produces (these are the only ones the checkpoint store
writes). -/
def fromisoChars (l : List Char) : Option PyDatetime :=
  match readNumSep 4 '-' l with
  | none => none
  | some (y, l) =>
    match readNumSep 2 '-' l with
    | none => none
    | some (mo, l) =>
      match readNumSep 2 'T' l with
      | none => none
      | some (dy, l) =>
        match readNumSep 2 ':' l with
        | none => none
        | some (h, l) =>
          match readNumSep 2 ':' l with
          | none => none
          | some (mi, l) =>
            match readNum 2 0 l with
            | none => none
            | some (s, l) =>
              match l with
              | [] => some ⟨y, mo, dy, h, mi, s, 0⟩
              | '.' :: l2 =>
                match readNum 6 0 l2 with
                | none => none
                | some (us, l3) =>
                  match l3 with
                  | [] => some ⟨y, mo, dy, h, mi, s, us⟩
                  | _ => none
              | _ => none

/-- Models `datetime.fromisoformat`. -/
def fromisoformat (s : String) : Option PyDatetime := fromisoChars s.data

theorem fromisoformat_isoformat (d : PyDatetime) (h : ValidPyDatetime d) :
    fromisoformat (isoformat d) = some d := by
  obtain ⟨hy1, hy2, hm1, hm2, hd1, hd2, hh, hmi, hs, hus⟩ := h
  have hy : d.year < 10 ^ 4 := by norm_num; omega
  have hmo : d.month < 10 ^ 2 := by norm_num; omega
  have hdy : d.day < 10 ^ 2 := by norm_num; omega
  have hho : d.hour < 10 ^ 2 := by norm_num; omega
  have hmin : d.minute < 10 ^ 2 := by norm_num; omega
  have hsec : d.second < 10 ^ 2 := by norm_num; omega
  have husec : d.microsecond < 10 ^ 6 := by norm_num; omega
  unfold fromisoformat isoformat fromisoChars isoChars
  by_cases h0 : d.microsecond = 0
  · simp only [h0, if_true,
      readNumSep_padNum 4 d.year '-' _ hy,
      readNumSep_padNum 2 d.month '-' _ hmo,
      readNumSep_padNum 2 d.day 'T' _ hdy,
      readNumSep_padNum 2 d.hour ':' _ hho,
      readNumSep_padNum 2 d.minute ':' _ hmin,
      readNum0_padNum 2 d.second _ hsec]
    rw [← h0]
  · simp only [h0, if_false,
      readNumSep_padNum 4 d.year '-' _ hy,
      readNumSep_padNum 2 d.month '-' _ hmo,
      readNumSep_padNum 2 d.day 'T' _ hdy,
      readNumSep_padNum 2 d.hour ':' _ hho,
      readNumSep_padNum 2 d.minute ':' _ hmin,
      readNum0_padNum 2 d.second _ hsec]
    rw [show padNum 6 d.microsecond = padNum 6 d.microsecond ++ ([] : List Char)
      by simp]
    simp only [readNum0_padNum 6 d.microsecond _ husec]

theorem isoformat_ne_empty (d : PyDatetime) : isoformat d ≠ "" := by
  unfold isoformat isoChars padNum
  intro h
  have : (digitChar (d.year / 10 ^ 3) ::
      (padNum 3 (d.year % 10 ^ 3) ++ _)) = ([] : List Char) :=
    congrArg String.data h
  exact absurd this (by simp)

/-! ## The run state (src/state.py)

`VentureLensState` is a `TypedDict`; we flatten it to a structure.  The
`prescreen_confidence` key is added dynamically by the prescreen agent, so it
is modelled as an `Option`.  `scores` maps a category name to a metric map,
`rationale` maps a category name to a map of opaque entries. -/

structure SearchSource where
  query : String
  result_snippet : String
  url : String
  confidence : ℚ
  timestamp : Option PyDatetime
  source_type : String
deriving Repr

abbrev ScoreMap := List (String × ℚ)
abbrev Scores := List (String × ScoreMap)
abbrev RationaleMap := List (String × JValue)
abbrev Rationale := List (String × RationaleMap)

structure VState where
  company_name : String
  bp_file_path : Option String
  run_id : String
  prescreen_passed : Bool
  prescreen_reason : String
  prescreen_confidence : Option ℚ
  scores : Scores
  rationale : Rationale
  sources : List SearchSource
  bp_extracted_data : JValue
  cross_check_results : JValue
  completed_agents : List String
  current_agent : String
  final_report : Option String
  created_at : Option PyDatetime
  updated_at : Option PyDatetime
deriving Repr

/-- Models `create_initial_state` (src/state.py).  `fresh_id` models the
`uuid.uuid4()` value and `now` the `datetime.now()` call. -/
def create_initial_state (company_name : String) (bp_file_path : Option String)
    (run_id : Option String) (fresh_id : String) (now : PyDatetime) : VState :=
  { company_name := company_name
    bp_file_path := bp_file_path
    run_id := run_id.getD fresh_id
    prescreen_passed := false
    prescreen_reason := ""
    prescreen_confidence := none
    scores := []
    rationale := []
    sources := []
    bp_extracted_data := .jobj []
    cross_check_results := .jobj []
    completed_agents := []
    current_agent := ""
    final_report := none
    created_at := some now
    updated_at := some now }

/-- Models `update_state_timestamp` (src/state.py); `now` models `datetime.now()`. -/
def update_state_timestamp (st : VState) (now : PyDatetime) : VState :=
  { st with updated_at := some now }

/-! ## Checkpoint serialization (src/graph.py `_serialize_state` /
`_deserialize_state`)

The serialized form mirrors the JSON document written to the checkpoint
file: datetimes become ISO strings (or null), `SearchSource` records become
plain field maps, and every other field passes through `json.dump`/`json.load`
unchanged (the claims assume JSON-representable field values, under which the
file round trip is the identity). -/

structure SerializedSource where
  query : String
  result_snippet : String
  url : String
  confidence : ℚ
  timestamp : Option String
  source_type : String
deriving Repr

structure SerializedState where
  company_name : String
  bp_file_path : Option String
  run_id : String
  prescreen_passed : Bool
  prescreen_reason : String
  prescreen_confidence : Option ℚ
  scores : Scores
  rationale : Rationale
  sources : List SerializedSource
  bp_extracted_data : JValue
  cross_check_results : JValue
  completed_agents : List String
  current_agent : String
  final_report : Option String
  created_at : Option String
  updated_at : Option String
deriving Repr

/-- One element of the `sources` list as serialized by `_serialize_state`. -/
def serialize_source (s : SearchSource) : SerializedSource :=
  { query := s.query
    result_snippet := s.result_snippet
    url := s.url
    confidence := s.confidence
    timestamp := s.timestamp.map isoformat
    source_type := s.source_type }

/-- Models `_serialize_state` (src/graph.py). -/
def serialize_state (st : VState) : SerializedState :=
  { company_name := st.company_name
    bp_file_path := st.bp_file_path
    run_id := st.run_id
    prescreen_passed := st.prescreen_passed
    prescreen_reason := st.prescreen_reason
    prescreen_confidence := st.prescreen_confidence
    scores := st.scores
    rationale := st.rationale
    sources := st.sources.map serialize_source
    bp_extracted_data := st.bp_extracted_data
    cross_check_results := st.cross_check_results
    completed_agents := st.completed_agents
    current_agent := st.current_agent
    final_report := st.final_report
    created_at := st.created_at.map isoformat
    updated_at := st.updated_at.map isoformat }

/-- Decodes one optional ISO timestamp string, mirroring
`if state.get(key): datetime.fromisoformat(...)`.  A `fromisoformat` failure
raises in Python and is caught by `_load_checkpoint`, which we model by
propagating `none`; the empty string is falsy in Python and is left alone
there (it cannot arise from `_serialize_state`, whose timestamps are
non-empty), which we also model as a failed load. -/
def decode_timestamp : Option String → Option (Option PyDatetime)
  | none => some none
  | some s => if s = "" then none else (fromisoformat s).map some

/-- One element of the `sources` list as rebuilt by `_deserialize_state`. -/
def deserialize_source (s : SerializedSource) : Option SearchSource :=
  match decode_timestamp s.timestamp with
  | none => none
  | some ts =>
    some { query := s.query
           result_snippet := s.result_snippet
           url := s.url
           confidence := s.confidence
           timestamp := ts
           source_type := s.source_type }

/-- The `for source_data in state["sources"]` loop of `_deserialize_state`:
the rebuilt records in order, failing on the first bad timestamp. -/
def deserialize_sources : List SerializedSource → Option (List SearchSource)
  | [] => some []
  | s :: t =>
    match deserialize_source s with
    | none => none
    | some v =>
      match deserialize_sources t with
      | none => none
      | some vs => some (v :: vs)

/-- Models `_deserialize_state` (src/graph.py).  Exceptions raised during
deserialization are caught by `_load_checkpoint` and turn into "no
checkpoint", modelled by `none`. -/
def deserialize_state (ser : SerializedState) : Option VState :=
  match decode_timestamp ser.created_at with
  | none => none
  | some created =>
    match decode_timestamp ser.updated_at with
    | none => none
    | some updated =>
      match deserialize_sources ser.sources with
      | none => none
      | some srcs =>
        some { company_name := ser.company_name
               bp_file_path := ser.bp_file_path
               run_id := ser.run_id
               prescreen_passed := ser.prescreen_passed
               prescreen_reason := ser.prescreen_reason
               prescreen_confidence := ser.prescreen_confidence
               scores := ser.scores
               rationale := ser.rationale
               sources := srcs
               bp_extracted_data := ser.bp_extracted_data
               cross_check_results := ser.cross_check_results
               completed_agents := ser.completed_agents
               current_agent := ser.current_agent
               final_report := ser.final_report
               created_at := created
               updated_at := updated }

/-- Validity of an optional instant. -/
def validOptDt : Option PyDatetime → Prop
  | none => True
  | some d => ValidPyDatetime d

instance : DecidablePred validOptDt := fun o => by
  cases o <;> unfold validOptDt <;> infer_instance

/-- Validity of the datetime-valued fields of a run state: every present
instant satisfies the `datetime` constructor invariants (always true of
values produced by `datetime.now()`). -/
def ValidVState (st : VState) : Prop :=
  validOptDt st.created_at ∧ validOptDt st.updated_at ∧
  ∀ s ∈ st.sources, validOptDt s.timestamp

instance (st : VState) : Decidable (ValidVState st) := by
  unfold ValidVState; infer_instance

theorem decode_timestamp_roundtrip (o : Option PyDatetime)
    (h : validOptDt o) : decode_timestamp (o.map isoformat) = some o := by
  cases o with
  | none => rfl
  | some d =>
    have h1 : isoformat d ≠ "" := isoformat_ne_empty d
    have h2 := fromisoformat_isoformat d h
    simp [decode_timestamp, h1, h2]

theorem deserialize_source_roundtrip (s : SearchSource)
    (h : validOptDt s.timestamp) :
    deserialize_source (serialize_source s) = some s := by
  simp only [serialize_source, deserialize_source,
    decode_timestamp_roundtrip s.timestamp h]

theorem deserialize_sources_roundtrip (l : List SearchSource)
    (h : ∀ s ∈ l, validOptDt s.timestamp) :
    deserialize_sources (l.map serialize_source) = some l := by
  induction l with
  | nil => rfl
  | cons hd t ih =>
    have hhd := deserialize_source_roundtrip hd (h hd (by simp))
    have ht := ih (fun s hs => h s (by simp [hs]))
    simp [deserialize_sources, hhd, ht]

/-- Claim C5: for every run state whose field values are JSON-representable,
deserializing the serialized checkpoint form (load after save) reproduces
every `RunState` field exactly, including the order of the evidence
(`sources`) list and the exact `created_at`, `updated_at` and per-source
timestamp instants. -/
theorem C5_checkpoint_roundtrip (st : VState) (h : ValidVState st) :
    deserialize_state (serialize_state st) = some st := by
  obtain ⟨h1, h2, h3⟩ := h
  simp only [serialize_state, deserialize_state,
    decode_timestamp_roundtrip st.created_at h1,
    decode_timestamp_roundtrip st.updated_at h2,
    deserialize_sources_roundtrip st.sources h3]

/-- A concrete run state exercising both timestamp shapes (with and without
microseconds, and an absent per-source timestamp). -/
def c5_state : VState :=
  { company_name := "Acme"
    bp_file_path := some "bp.pdf"
    run_id := "run-1"
    prescreen_passed := true
    prescreen_reason := "ok"
    prescreen_confidence := some (9 / 10)
    scores := [("prescreen", [("overall", 8), ("confidence", 9 / 10)])]
    rationale := [("prescreen", [("reason", .jstr "ok")])]
    sources :=
      [{ query := "q1", result_snippet := "s1", url := "u1",
         confidence := 7 / 10, timestamp := some ⟨2024, 5, 6, 7, 8, 9, 123456⟩,
         source_type := "web" },
       { query := "q2", result_snippet := "s2", url := "u2",
         confidence := 1 / 2, timestamp := none, source_type := "api" }]
    bp_extracted_data := .jobj [("k", .jstr "v")]
    cross_check_results := .jobj []
    completed_agents := ["prescreen"]
    current_agent := "prescreen"
    final_report := none
    created_at := some ⟨2024, 5, 6, 7, 8, 9, 0⟩
    updated_at := some ⟨2024, 5, 6, 7, 8, 10, 42⟩ }

/-- Witness for C5 at a concrete state. -/
theorem C5_checkpoint_roundtrip_witness :
    ValidVState c5_state ∧
      deserialize_state (serialize_state c5_state) = some c5_state :=
  ⟨by decide, C5_checkpoint_roundtrip c5_state (by decide)⟩

/-! ## Weighted overall score (src/report/report_generator.py
`_calculate_overall_score`) -/

/-- Models `_calculate_overall_score`: iterate the fixed weight table in order,
accumulating `weight · overall` and the weight for every category that is
present with an `"overall"` entry; divide, or return `0.0` when no weight
accumulated. -/
def calculate_overall_score (scores : Scores) : ℚ :=
  let weights : List (String × ℚ) :=
    [("industry", 3 / 10), ("team", 1 / 4), ("financial", 1 / 4),
     ("risk", 1 / 5)]
  let acc := weights.foldl
    (fun (acc : ℚ × ℚ) cw =>
      match alGet? scores cw.1 with
      | none => acc
      | some cat =>
        match alGet? cat "overall" with
        | none => acc
        | some v => (acc.1 + v * cw.2, acc.2 + cw.2))
    (0, 0)
  if acc.2 = 0 then 0 else acc.1 / acc.2

/-- A scores mapping in which exactly the given categories carry an
`"overall"` value. -/
def mkCatScores (oi ot of orr : Option ℚ) : Scores :=
  (match oi with
   | some v => [("industry", [("overall", v)])]
   | none => []) ++
  (match ot with
   | some v => [("team", [("overall", v)])]
   | none => []) ++
  (match of with
   | some v => [("financial", [("overall", v)])]
   | none => []) ++
  (match orr with
   | some v => [("risk", [("overall", v)])]
   | none => [])

/-- Claim C6: the combined score is the sum of `weight · overall` over the
present categories divided by the sum of their weights (weights 0.3, 0.25,
0.25, 0.2); in particular 8/6/7/9 gives 7.45 and industry=8, team=6 alone
give 3.9/0.55 = 78/11 ≈ 7.09. -/
theorem C6_weighted_score (oi ot of orr : Option ℚ) :
    (calculate_overall_score (mkCatScores oi ot of orr)
      = (let num := oi.elim 0 (· * (3 / 10)) + ot.elim 0 (· * (1 / 4)) +
           of.elim 0 (· * (1 / 4)) + orr.elim 0 (· * (1 / 5))
         let den := oi.elim 0 (fun _ => (3 : ℚ) / 10) +
           ot.elim 0 (fun _ => (1 : ℚ) / 4) +
           of.elim 0 (fun _ => (1 : ℚ) / 4) +
           orr.elim 0 (fun _ => (1 : ℚ) / 5)
         if den = 0 then 0 else num / den)) ∧
    calculate_overall_score
      (mkCatScores (some 8) (some 6) (some 7) (some 9)) = 149 / 20 ∧
    calculate_overall_score (mkCatScores (some 8) (some 6) none none)
      = 78 / 11 := by
  refine ⟨?_, ?_, ?_⟩
  · rcases oi with _ | vi <;> rcases ot with _ | vt <;>
      rcases of with _ | vf <;> rcases orr with _ | vr <;>
      simp +decide [calculate_overall_score, mkCatScores, alGet?]
  · simp +decide [calculate_overall_score, mkCatScores, alGet?]
    norm_num
  · simp +decide [calculate_overall_score, mkCatScores, alGet?]
    norm_num

/-! ## Structured-output recovery (src/services/llm_inference_simple.py
`parse_json_response`)

`json.loads` is the standard-library JSON reader; we implement it concretely
(objects, arrays, strings with the common escapes, numbers with fraction and
exponent, `true`/`false`/`null`), returning decode errors as `Except.error`,
so that `parse_json_response` is fully executable. -/

/-- The whitespace characters `json.loads` skips between tokens. -/
def isJsonWs (c : Char) : Bool :=
  c = ' ' || c = '\n' || c = '\t' || c = '\r'

/-- JSON whitespace skipping, as in `json.loads`. -/
def skipWs (l : List Char) : List Char := l.dropWhile isJsonWs

/-- Reads the body of a JSON string after the opening quote. -/
def readStringChars : Nat → List Char → Except String (List Char × List Char)
  | 0, _ => .error "Unterminated string"
  | _ + 1, [] => .error "Unterminated string"
  | fuel + 1, c :: l =>
    if c = '"' then .ok ([], l)
    else if c = '\\' then
      match l with
      | [] => .error "Unterminated string"
      | e :: l2 =>
        let esc : Except String Char :=
          if e = '"' then .ok '"'
          else if e = '\\' then .ok '\\'
          else if e = '/' then .ok '/'
          else if e = 'n' then .ok '\n'
          else if e = 't' then .ok '\t'
          else if e = 'r' then .ok '\r'
          else if e = 'b' then .ok (Char.ofNat 8)
          else if e = 'f' then .ok (Char.ofNat 12)
          else .error "Invalid escape"
        match esc with
        | .error m => .error m
        | .ok ce =>
          match readStringChars fuel l2 with
          | .ok (cs, rest) => .ok (ce :: cs, rest)
          | .error m => .error m
    else
      match readStringChars fuel l with
      | .ok (cs, rest) => .ok (c :: cs, rest)
      | .error m => .error m

/-- Greedily consumes a run of decimal digits, returning the accumulated
value, the number of digits consumed, and the remaining input. -/
def readDigitRun (acc cnt : Nat) : List Char → Nat × Nat × List Char
  | c :: l =>
    match readDigit c with
    | some d => readDigitRun (acc * 10 + d) (cnt + 1) l
    | none => (acc, cnt, c :: l)
  | [] => (acc, cnt, [])

/-- Reads a JSON number (sign, integer part, fraction, exponent). -/
def parseNumber (l : List Char) : Except String (ℚ × List Char) :=
  let signStep : Bool × List Char :=
    match l with
    | '-' :: t => (true, t)
    | _ => (false, l)
  let (iv, icnt, l2) := readDigitRun 0 0 signStep.2
  if icnt = 0 then .error "Expecting value"
  else
    let ip : ℚ := (iv : ℚ)
    let fracStep : Except String (ℚ × List Char) :=
      match l2 with
      | '.' :: t =>
        let (fv, fcnt, r) := readDigitRun 0 0 t
        if fcnt = 0 then .error "Expecting digits after decimal point"
        else .ok (ip + (fv : ℚ) / ((10 : ℚ) ^ fcnt), r)
      | _ => .ok (ip, l2)
    match fracStep with
    | .error m => .error m
    | .ok (v, l3) =>
      let expStep : Except String (ℚ × List Char) :=
        match l3 with
        | c :: t =>
          if c = 'e' ∨ c = 'E' then
            let esign : Bool × List Char :=
              match t with
              | '-' :: t2 => (true, t2)
              | '+' :: t2 => (false, t2)
              | _ => (false, t)
            let (ev, ecnt, r) := readDigitRun 0 0 esign.2
            if ecnt = 0 then .error "Expecting digits in exponent"
            else
              .ok (if esign.1 then v / (10 : ℚ) ^ ev
                   else v * (10 : ℚ) ^ ev, r)
          else .ok (v, l3)
        | [] => .ok (v, l3)
      match expStep with
      | .error m => .error m
      | .ok (v2, l4) => .ok (if signStep.1 then -v2 else v2, l4)

mutual

/-- Reads one JSON value. -/
def parseJ : Nat → List Char → Except String (JValue × List Char)
  | 0, _ => .error "Value nested too deeply"
  | fuel + 1, l =>
    match skipWs l with
    | [] => .error "Expecting value"
    | c :: t =>
      if c = '"' then
        match readStringChars (t.length + 1) t with
        | .ok (cs, r) => .ok (.jstr (String.mk cs), r)
        | .error m => .error m
      else if c = '{' then
        match skipWs t with
        | '}' :: r => .ok (.jobj [], r)
        | t2 =>
          match parseMembers fuel t2 with
          | .ok (fs, r) => .ok (.jobj fs, r)
          | .error m => .error m
      else if c = '[' then
        match skipWs t with
        | ']' :: r => .ok (.jarr [], r)
        | t2 =>
          match parseItems fuel t2 with
          | .ok (xs, r) => .ok (.jarr xs, r)
          | .error m => .error m
      else if c = 't' then
        match t with
        | 'r' :: 'u' :: 'e' :: r => .ok (.jbool true, r)
        | _ => .error "Expecting value"
      else if c = 'f' then
        match t with
        | 'a' :: 'l' :: 's' :: 'e' :: r => .ok (.jbool false, r)
        | _ => .error "Expecting value"
      else if c = 'n' then
        match t with
        | 'u' :: 'l' :: 'l' :: r => .ok (.jnull, r)
        | _ => .error "Expecting value"
      else if c = '-' ∨ (readDigit c).isSome then
        match parseNumber (c :: t) with
        | .ok (q, r) => .ok (.jnum q, r)
        | .error m => .error m
      else .error "Expecting value"

/-- Reads the members of a JSON object after its opening brace. -/
def parseMembers : Nat → List Char →
    Except String (List (String × JValue) × List Char)
  | 0, _ => .error "Value nested too deeply"
  | fuel + 1, l =>
    match l with
    | '"' :: t =>
      match readStringChars (t.length + 1) t with
      | .error m => .error m
      | .ok (kcs, r) =>
        match skipWs r with
        | ':' :: r2 =>
          match parseJ fuel r2 with
          | .error m => .error m
          | .ok (v, r3) =>
            match skipWs r3 with
            | ',' :: r4 =>
              match parseMembers fuel (skipWs r4) with
              | .ok (fs, r5) => .ok ((String.mk kcs, v) :: fs, r5)
              | .error m => .error m
            | '}' :: r4 => .ok ([(String.mk kcs, v)], r4)
            | _ => .error "Expecting delimiter"
        | _ => .error "Expecting colon"
    | _ => .error "Expecting property name"

/-- Reads the items of a JSON array after its opening bracket. -/
def parseItems : Nat → List Char → Except String (List JValue × List Char)
  | 0, _ => .error "Value nested too deeply"
  | fuel + 1, l =>
    match parseJ fuel l with
    | .error m => .error m
    | .ok (v, r) =>
      match skipWs r with
      | ',' :: r2 =>
        match parseItems fuel r2 with
        | .ok (xs, r3) => .ok (v :: xs, r3)
        | .error m => .error m
      | ']' :: r2 => .ok ([v], r2)
      | _ => .error "Expecting delimiter"

end

/-- Models `json.loads`: one value surrounded by optional whitespace; anything
remaining is the "Extra data" decode error. -/
def jsonLoads (s : String) : Except String JValue :=
  match parseJ (s.length + 1) s.data with
  | .error m => .error m
  | .ok (v, rest) => if skipWs rest = [] then .ok v else .error "Extra data"

/-- Models `content.strip().startswith('{')`. -/
def stripped_starts_with_brace (s : String) : Bool :=
  match skipWs s.data with
  | '{' :: _ => true
  | _ => false

/-- The match of `re.search(r'\x7b.*\x7d', content, re.DOTALL)`: the greedy
span from the first opening brace to the last closing brace, when the first
opening brace comes strictly before the last closing brace. -/
def extract_brace_span (s : String) : Option String :=
  match s.data.findIdx? (· = '{'), s.data.reverse.findIdx? (· = '}') with
  | some i, some k =>
    let j := s.data.length - 1 - k
    if i < j then some (String.mk ((s.data.drop i).take (j - i + 1))) else none
  | _, _ => none

/-- Models `parse_json_response` (src/services/llm_inference_simple.py): try a
strict parse when the stripped content starts with a brace; otherwise parse
the greedy first-to-last-brace span; all decode failures are caught and
turned into an error structure carrying the raw content. -/
def parse_json_response (content : String) : JValue :=
  if stripped_starts_with_brace content then
    match jsonLoads content with
    | .ok v => v
    | .error e =>
      .jobj [("error", .jstr ("JSON decode error: " ++ e)),
             ("raw_content", .jstr content)]
  else
    match extract_brace_span content with
    | some js =>
      match jsonLoads js with
      | .ok v => v
      | .error e =>
        .jobj [("error", .jstr ("JSON decode error: " ++ e)),
               ("raw_content", .jstr content)]
    | none =>
      .jobj [("error", .jstr "No valid JSON found"),
             ("raw_content", .jstr content)]

/-- Scans forward from inside a brace pair, tracking nesting depth, and
returns the text up to the matching closing brace. -/
def balancedScanAux : Nat → List Char → List Char → Option (List Char)
  | depth, acc, c :: l =>
    if c = '{' then balancedScanAux (depth + 1) (c :: acc) l
    else if c = '}' then
      if depth = 1 then some (c :: acc).reverse
      else balancedScanAux (depth - 1) (c :: acc) l
    else balancedScanAux depth (c :: acc) l
  | _, _, [] => none

/-- The first balanced-brace substring of `s`, as the spec's three-tier
contract describes the second tier. -/
def first_balanced_brace (s : String) : Option String :=
  match s.data.dropWhile (· ≠ '{') with
  | '{' :: t => (balancedScanAux 1 ['{'] t).map String.mk
  | _ => none

/-- Follows the words of the spec ("strict parse → first balanced-brace
substring → default fallback structure"), for comparison with the
implementation's `parse_json_response`. -/
def spec_three_tier_recovery (content : String) : JValue :=
  match jsonLoads content with
  | .ok v => v
  | .error _ =>
    match first_balanced_brace content with
    | some js =>
      match jsonLoads js with
      | .ok v => v
      | .error _ =>
        .jobj [("error", .jstr "No valid JSON found"),
               ("raw_content", .jstr content)]
    | none =>
      .jobj [("error", .jstr "No valid JSON found"),
             ("raw_content", .jstr content)]

/-- Does a JSON object carry an `"error"` field? -/
def hasErrorKey : JValue → Bool
  | .jobj fields => (alGet? fields "error").isSome
  | _ => false

/-- The counterexample input: valid JSON followed by trailing text. -/
def json_cex : String := "\x7b\"a\": 1\x7d x"

/-- Claim C9 counterexample: on `'\x7b"a": 1\x7d x'` the implementation
returns the decode-error fallback (the strict parse fails with "Extra data"
and no substring extraction is attempted because the stripped content starts
with a brace), whereas the spec's three-tier contract would return the parse
of the first balanced-brace substring, `\x7b"a": 1\x7d`. -/
theorem C9_parse_json_counterexample :
    parse_json_response json_cex =
      .jobj [("error", .jstr "JSON decode error: Extra data"),
             ("raw_content", .jstr json_cex)] ∧
    spec_three_tier_recovery json_cex = .jobj [("a", .jnum 1)] ∧
    parse_json_response json_cex ≠ spec_three_tier_recovery json_cex := by
  have h1 : parse_json_response json_cex =
      .jobj [("error", .jstr "JSON decode error: Extra data"),
             ("raw_content", .jstr json_cex)] := rfl
  have h2 : spec_three_tier_recovery json_cex = .jobj [("a", .jnum 1)] := rfl
  refine ⟨h1, h2, ?_⟩
  intro h
  rw [h1, h2] at h
  have h3 := congrArg hasErrorKey h
  simp [hasErrorKey, alGet?] at h3

/-- Claim C9 (amended): `parse_json_response` never raises and follows this
contract: when the stripped content starts with `'\x7b'` it strict-parses the
whole content, returning the parsed value on success and the decode-error
fallback on failure, without attempting substring extraction; otherwise it
parses the greedy span from the first `'\x7b'` to the last `'\x7d'` (not the
first balanced pair), returning the parsed value on success; when that span
is absent it returns the default fallback structure. -/
theorem C9_parse_json_amended (content : String) :
    (∀ v, stripped_starts_with_brace content = true →
      jsonLoads content = .ok v → parse_json_response content = v) ∧
    (∀ e, stripped_starts_with_brace content = true →
      jsonLoads content = .error e →
      parse_json_response content =
        .jobj [("error", .jstr ("JSON decode error: " ++ e)),
               ("raw_content", .jstr content)]) ∧
    (∀ js v, stripped_starts_with_brace content = false →
      extract_brace_span content = some js → jsonLoads js = .ok v →
      parse_json_response content = v) ∧
    (stripped_starts_with_brace content = false →
      extract_brace_span content = none →
      parse_json_response content =
        .jobj [("error", .jstr "No valid JSON found"),
               ("raw_content", .jstr content)]) := by
  refine ⟨fun v hb hl => ?_, fun e hb hl => ?_, fun js v hb hsp hl => ?_,
    fun hb hsp => ?_⟩
  · simp [parse_json_response, hb, hl]
  · simp [parse_json_response, hb, hl]
  · simp [parse_json_response, hb, hsp, hl]
  · simp [parse_json_response, hb, hsp]

/-- Witness for C9 (amended) at concrete inputs exercising the strict-parse
tier and the extraction tier. -/
theorem C9_parse_json_amended_witness :
    parse_json_response "\x7b\"b\": 2\x7d" = .jobj [("b", .jnum 2)] ∧
    parse_json_response "x \x7b\"b\": 2\x7d" = .jobj [("b", .jnum 2)] :=
  ⟨(C9_parse_json_amended "\x7b\"b\": 2\x7d").1 (.jobj [("b", .jnum 2)])
      rfl rfl,
   (C9_parse_json_amended "x \x7b\"b\": 2\x7d").2.2.1 "\x7b\"b\": 2\x7d"
      (.jobj [("b", .jnum 2)]) rfl rfl rfl⟩

/-! ## Tool registry and dispatch (src/services/toolkit.py) -/

/-- One registered tool: an executable handler (which may raise, modelled by
`Except.error` carrying `str(e)`) and its `to_openai_format()` descriptor. -/
structure RegisteredTool where
  handler : List (String × JValue) → Except String JValue
  openai_format : JValue

/-- The `self.tools` name-to-tool map of `VentureLensToolkit`. -/
structure Toolkit where
  tools : List (String × RegisteredTool)

/-- Models `VentureLensToolkit.execute_tool`: unknown names give a structured
failure, handler exceptions are caught and turned into a structured failure
with `str(e)`; otherwise the handler's result is returned as-is. -/
def execute_tool (tk : Toolkit) (tool_name : String)
    (kwargs : List (String × JValue)) : JValue :=
  match alGet? tk.tools tool_name with
  | none =>
    .jobj [("success", .jbool false),
           ("error", .jstr ("工具 " ++ tool_name ++ " 不存在"))]
  | some t =>
    match t.handler kwargs with
    | .ok r => r
    | .error e => .jobj [("success", .jbool false), ("error", .jstr e)]

/-- Models `VentureLensToolkit.get_tools_for_agent`: the fixed per-stage allow-list,
filtered to the registered tools. -/
def get_tools_for_agent (tk : Toolkit) (agent_type : String) :
    List RegisteredTool :=
  let tool_mappings : List (String × List String) :=
    [("prescreen", ["search", "company_info", "enterprise_data"]),
     ("industry_dd",
       ["search", "industry_analysis", "company_info", "enterprise_data"]),
     ("team_dd", ["search", "company_info", "enterprise_data"]),
     ("fin_dd", ["search", "financial_info", "company_info",
       "enterprise_data"]),
     ("risk_dd", ["search", "risk_assessment", "company_info",
       "enterprise_data"]),
     ("cross_check", ["search", "company_info", "enterprise_data"])]
  let tool_names := (alGet? tool_mappings agent_type).getD ["search"]
  tool_names.filterMap (fun n => alGet? tk.tools n)

/-- Claim C7: `execute_tool` never raises (it is a total function); an
unregistered name yields a structured `success=false` result with an error
message, a raising handler yields a structured `success=false` result with
the exception's message, and a successful handler's structured result is
passed through. -/
theorem C7_dispatch_containment (tk : Toolkit) (tool_name : String)
    (kwargs : List (String × JValue)) :
    (alGet? tk.tools tool_name = none →
      execute_tool tk tool_name kwargs =
        .jobj [("success", .jbool false),
               ("error", .jstr ("工具 " ++ tool_name ++ " 不存在"))]) ∧
    (∀ t e, alGet? tk.tools tool_name = some t →
      t.handler kwargs = .error e →
      execute_tool tk tool_name kwargs =
        .jobj [("success", .jbool false), ("error", .jstr e)]) ∧
    (∀ t r, alGet? tk.tools tool_name = some t → t.handler kwargs = .ok r →
      execute_tool tk tool_name kwargs = r) := by
  refine ⟨fun h => ?_, fun t e ht he => ?_, fun t r ht hr => ?_⟩
  · simp [execute_tool, h]
  · simp [execute_tool, ht, he]
  · simp [execute_tool, ht, hr]

/-- A toolkit with one succeeding and one raising tool, for the C7
witness. -/
def c7_toolkit : Toolkit :=
  { tools :=
      [("search",
        { handler := fun _ => .ok (.jobj [("success", .jbool true)]),
          openai_format := .jobj [] }),
       ("company_info",
        { handler := fun _ => .error "boom",
          openai_format := .jobj [] })] }

/-- Witness for C7: an unregistered name, a raising handler and a
succeeding handler, each at a concrete call. -/
theorem C7_dispatch_containment_witness :
    execute_tool c7_toolkit "missing" [] =
      .jobj [("success", .jbool false),
             ("error", .jstr "工具 missing 不存在")] ∧
    execute_tool c7_toolkit "company_info" [] =
      .jobj [("success", .jbool false), ("error", .jstr "boom")] ∧
    execute_tool c7_toolkit "search" [] = .jobj [("success", .jbool true)] :=
  ⟨(C7_dispatch_containment c7_toolkit "missing" []).1 rfl,
   (C7_dispatch_containment c7_toolkit "company_info" []).2.1 _ "boom" rfl rfl,
   (C7_dispatch_containment c7_toolkit "search" []).2.2 _ _ rfl rfl⟩

/-! ## The bounded tool-calling loop (src/agents/base.py
`execute_with_tools`) -/

/-- The `function` part of one model tool-call request. -/
structure ToolCallFn where
  name : String
  arguments : String

/-- One tool-call request as parsed from a model response. -/
structure ToolCall where
  id : String
  function : ToolCallFn

/-- A model response as seen by the loop: `error` is present on a failed
call (truthy string), `content` is the optional text, `tool_calls` the list
of requested calls (empty when the key is missing). -/
structure LLMToolResponse where
  error : Option String
  content : Option String
  tool_calls : List ToolCall

/-- One entry of the running `messages` transcript. -/
structure ChatMessage where
  role : String
  content : String
  tool_calls : List ToolCall
  tool_call_id : Option String

/-- One entry of the `tool_results` list returned by the loop. -/
structure ToolExecRecord where
  tool_name : String
  arguments : List (String × JValue)
  result : JValue

/-- Collaborators of the loop: the completion service
(`call_llm_with_tools`, a function of the transcript, the advertised tool
descriptors and the system message) and `json.dumps`. -/
structure ToolLoopEnv where
  model : List ChatMessage → List JValue → String → LLMToolResponse
  dumps : JValue → String

/-- The loop's return value.  `model_calls` is instrumentation counting the
completion-service invocations; the other four fields are the dict returned
by `execute_with_tools`. -/
structure ToolLoopResult where
  final_response : String
  tool_results : List ToolExecRecord
  iterations : Nat
  messages : List ChatMessage
  model_calls : Nat

/-- Models `BaseAgent._execute_tool_by_function_name`: map OpenAI function names to
registry names, defaulting to the name itself, then dispatch. -/
def execute_tool_by_function_name (tk : Toolkit) (function_name : String)
    (args : List (String × JValue)) : JValue :=
  let tool_mapping : List (String × String) :=
    [("search_information", "search"),
     ("get_company_info", "company_info"),
     ("analyze_industry", "industry_analysis"),
     ("get_financial_info", "financial_info"),
     ("assess_risks", "risk_assessment")]
  let tool_name := (alGet? tool_mapping function_name).getD function_name
  execute_tool tk tool_name args

/-- Handles one requested tool call: parse its JSON arguments, execute it,
and append the transcript entries; any exception is caught per call and
becomes an error-text transcript entry. -/
def process_tool_call (env : ToolLoopEnv) (tk : Toolkit)
    (acc : List ChatMessage × List ToolExecRecord) (tc : ToolCall) :
    List ChatMessage × List ToolExecRecord :=
  match jsonLoads tc.function.arguments with
  | .ok (.jobj args) =>
    let tool_result := execute_tool_by_function_name tk tc.function.name args
    (acc.1 ++
      [{ role := "assistant", content := "调用工具 " ++ tc.function.name,
         tool_calls := [tc], tool_call_id := none },
       { role := "tool", content := env.dumps tool_result, tool_calls := [],
         tool_call_id := some tc.id }],
     acc.2 ++ [{ tool_name := tc.function.name, arguments := args,
                 result := tool_result }])
  | .ok _ =>
    (acc.1 ++
      [{ role := "tool", content := "工具执行错误: arguments are not a mapping",
         tool_calls := [], tool_call_id := some tc.id }], acc.2)
  | .error e =>
    (acc.1 ++
      [{ role := "tool", content := "工具执行错误: " ++ e, tool_calls := [],
         tool_call_id := some tc.id }], acc.2)

/-- The `while iteration < max_iterations` loop of `execute_with_tools`.
`fuel` only bounds the recursion and never runs out when it starts at
`max_iterations + 1 - iteration` or more. -/
def ewt_loop (env : ToolLoopEnv) (tk : Toolkit) (tool_definitions : List JValue)
    (system_message : String) (max_iterations : Nat) :
    Nat → Nat → List ChatMessage → String → List ToolExecRecord → Nat →
      ToolLoopResult
  | 0, iteration, messages, final_result, tool_results, calls =>
    { final_response := final_result, tool_results := tool_results,
      iterations := iteration, messages := messages, model_calls := calls }
  | fuel + 1, iteration, messages, final_result, tool_results, calls =>
    if iteration < max_iterations then
      let response := env.model messages tool_definitions system_message
      if pyTruthyOptStr response.error then
        { final_response := final_result, tool_results := tool_results,
          iterations := iteration, messages := messages,
          model_calls := calls + 1 }
      else
        let acc :=
          if response.tool_calls.isEmpty then (messages, tool_results)
          else response.tool_calls.foldl (process_tool_call env tk)
            (messages, tool_results)
        if pyTruthyOptStr response.content && response.tool_calls.isEmpty then
          { final_response := response.content.getD "",
            tool_results := acc.2, iterations := iteration,
            messages := acc.1, model_calls := calls + 1 }
        else
          ewt_loop env tk tool_definitions system_message max_iterations
            fuel (iteration + 1) acc.1 final_result acc.2 (calls + 1)
    else
      { final_response := final_result, tool_results := tool_results,
        iterations := iteration, messages := messages, model_calls := calls }

/-- The default of the `max_iterations` argument of `execute_with_tools`. -/
def default_max_iterations : Nat := 3

/-- Models `BaseAgent.execute_with_tools`: advertise the agent's allow-listed tool
descriptors, seed the transcript with the user prompt, and run the bounded
loop. -/
def execute_with_tools (env : ToolLoopEnv) (tk : Toolkit)
    (agent_name prompt system_message : String) (max_iterations : Nat) :
    ToolLoopResult :=
  let tools := get_tools_for_agent tk agent_name
  let tool_definitions := tools.map (fun t => t.openai_format)
  let messages : List ChatMessage :=
    [{ role := "user", content := prompt, tool_calls := [],
       tool_call_id := none }]
  ewt_loop env tk tool_definitions system_message max_iterations
    (max_iterations + 1) 0 messages "" [] 0

/-- The transcript seeded by `execute_with_tools`. -/
def initial_messages (prompt : String) : List ChatMessage :=
  [{ role := "user", content := prompt, tool_calls := [],
     tool_call_id := none }]

/-- The descriptors `execute_with_tools` advertises to the model. -/
def advertised_tool_definitions (tk : Toolkit) (agent_name : String) :
    List JValue :=
  (get_tools_for_agent tk agent_name).map (fun t => t.openai_format)

/-- A constant model stub answering with text and no tool calls. -/
def c3_env : ToolLoopEnv :=
  { model := fun _ _ _ =>
      { error := none, content := some "最终答案", tool_calls := [] },
    dumps := fun _ => "" }

/-- An empty toolkit for the loop stubs. -/
def loop_stub_toolkit : Toolkit := { tools := [] }

/-- Claim C3 counterexample: a stub model whose first response carries text
content and no tool-call requests ends the loop after one model call with
that content as `final_response`, but the reported iteration count is 0, not
1 as the claim states — the counter is not incremented on the
immediate-finish path. -/
theorem C3_tool_loop_counterexample :
    (execute_with_tools c3_env loop_stub_toolkit "prescreen" "分析"
      "你是分析师" default_max_iterations).final_response = "最终答案" ∧
    (execute_with_tools c3_env loop_stub_toolkit "prescreen" "分析"
      "你是分析师" default_max_iterations).model_calls = 1 ∧
    (execute_with_tools c3_env loop_stub_toolkit "prescreen" "分析"
      "你是分析师" default_max_iterations).iterations ≠ 1 := by
  refine ⟨rfl, rfl, ?_⟩
  intro h
  exact absurd h (by decide)

/-- Claim C3 (amended): when the model's first response carries text content
and no tool-call requests (and no error), the loop terminates after that
single model call, `final_response` equals that content, and the reported
iteration count is 0 (the counter is only incremented when the loop
continues past an iteration). -/
theorem C3_tool_loop_immediate_finish (env : ToolLoopEnv) (tk : Toolkit)
    (agent_name prompt system_message : String) (max_iterations : Nat)
    (r : LLMToolResponse)
    (hr : env.model (initial_messages prompt)
      (advertised_tool_definitions tk agent_name) system_message = r)
    (hpos : 0 < max_iterations)
    (herr : pyTruthyOptStr r.error = false)
    (htc : r.tool_calls = [])
    (hct : pyTruthyOptStr r.content = true) :
    execute_with_tools env tk agent_name prompt system_message
        max_iterations =
      { final_response := r.content.getD "", tool_results := [],
        iterations := 0, messages := initial_messages prompt,
        model_calls := 1 } := by
  have hfuel : max_iterations + 1 = (max_iterations - 1) + 1 + 1 := by omega
  simp only [execute_with_tools, initial_messages,
    advertised_tool_definitions] at hr ⊢
  rw [hfuel]
  simp [ewt_loop, hpos, hr, herr, htc, hct]

/-- Witness for C3 (amended) at the constant stub. -/
theorem C3_tool_loop_immediate_finish_witness :
    execute_with_tools c3_env loop_stub_toolkit "prescreen" "分析"
        "你是分析师" default_max_iterations =
      { final_response := "最终答案", tool_results := [], iterations := 0,
        messages := initial_messages "分析", model_calls := 1 } :=
  C3_tool_loop_immediate_finish c3_env loop_stub_toolkit "prescreen" "分析"
    "你是分析师" default_max_iterations
    { error := none, content := some "最终答案", tool_calls := [] }
    rfl (by decide) rfl rfl (by decide)

/-- The loop under a model stub that always requests tool calls: every
iteration makes one model call and increments the counter, until the
iteration bound is hit. -/
theorem ewt_loop_always_tool_calls (env : ToolLoopEnv) (tk : Toolkit)
    (tds : List JValue) (sys : String) (max_iterations : Nat)
    (hstub : ∀ msgs, pyTruthyOptStr (env.model msgs tds sys).error = false ∧
      (env.model msgs tds sys).tool_calls ≠ []) :
    ∀ fuel iteration messages final_result tool_results calls,
      iteration ≤ max_iterations → max_iterations - iteration < fuel →
      (ewt_loop env tk tds sys max_iterations fuel iteration messages
          final_result tool_results calls).final_response = final_result ∧
      (ewt_loop env tk tds sys max_iterations fuel iteration messages
          final_result tool_results calls).iterations = max_iterations ∧
      (ewt_loop env tk tds sys max_iterations fuel iteration messages
          final_result tool_results calls).model_calls =
        calls + (max_iterations - iteration) := by
  intro fuel
  induction fuel with
  | zero => intro iteration _ _ _ _ _ h2; omega
  | succ fuel ih =>
    intro iteration messages final_result tool_results calls h1 h2
    by_cases hlt : iteration < max_iterations
    · obtain ⟨herr, htc⟩ := hstub messages
      have htc' : (env.model messages tds sys).tool_calls.isEmpty = false := by
        cases h : (env.model messages tds sys).tool_calls with
        | nil => exact absurd h htc
        | cons a t => simp [h]
      simp only [ewt_loop, if_pos hlt, herr, htc', Bool.and_false,
        Bool.false_eq_true, if_false, ite_false]
      refine ⟨?_, ?_, ?_⟩
      · exact (ih (iteration + 1) _ final_result _ (calls + 1) (by omega)
          (by omega)).1
      · exact (ih (iteration + 1) _ final_result _ (calls + 1) (by omega)
          (by omega)).2.1
      · rw [(ih (iteration + 1) _ final_result _ (calls + 1) (by omega)
          (by omega)).2.2]
        omega
    · have heq : iteration = max_iterations := by omega
      simp [ewt_loop, hlt, heq]

/-- Claim C4: with a model stub that always returns tool-call requests (and
no error), the loop performs exactly `max_iterations` model calls and then
terminates, ending with the empty final text (no text was produced on the
finish path); the default bound is 3. -/
theorem C4_tool_loop_bounded_termination (env : ToolLoopEnv) (tk : Toolkit)
    (agent_name prompt system_message : String) (max_iterations : Nat)
    (hstub : ∀ msgs,
      pyTruthyOptStr (env.model msgs
        (advertised_tool_definitions tk agent_name) system_message).error
          = false ∧
      (env.model msgs (advertised_tool_definitions tk agent_name)
        system_message).tool_calls ≠ []) :
    (execute_with_tools env tk agent_name prompt system_message
      max_iterations).model_calls = max_iterations ∧
    (execute_with_tools env tk agent_name prompt system_message
      max_iterations).iterations = max_iterations ∧
    (execute_with_tools env tk agent_name prompt system_message
      max_iterations).final_response = "" ∧
    default_max_iterations = 3 := by
  have h := ewt_loop_always_tool_calls env tk
    (advertised_tool_definitions tk agent_name) system_message max_iterations
    hstub (max_iterations + 1) 0 (initial_messages prompt) "" [] 0
    (by omega) (by omega)
  simp only [execute_with_tools, initial_messages,
    advertised_tool_definitions] at h ⊢
  exact ⟨by rw [h.2.2]; omega, h.2.1, h.1, rfl⟩

/-- A constant model stub that always requests one tool call. -/
def c4_env : ToolLoopEnv :=
  { model := fun _ _ _ =>
      { error := none, content := none,
        tool_calls := [⟨"call-1", ⟨"search_information", "\x7b\x7d"⟩⟩] },
    dumps := fun _ => "" }

/-- Witness for C4 at the always-tool-calls stub with the default bound. -/
theorem C4_tool_loop_bounded_termination_witness :
    (execute_with_tools c4_env loop_stub_toolkit "prescreen" "分析"
      "你是分析师" 3).model_calls = 3 ∧
    (execute_with_tools c4_env loop_stub_toolkit "prescreen" "分析"
      "你是分析师" 3).iterations = 3 ∧
    (execute_with_tools c4_env loop_stub_toolkit "prescreen" "分析"
      "你是分析师" 3).final_response = "" := by
  have h := C4_tool_loop_bounded_termination c4_env loop_stub_toolkit
    "prescreen" "分析" "你是分析师" 3
    (fun _ => ⟨rfl, by simp [c4_env]⟩)
  exact ⟨h.1, h.2.1, h.2.2.1⟩

/-! ## Python truthiness of JSON payloads -/

/-- Truthiness of an opaque payload (`not bp_data`). -/
def pyTruthyJ : JValue → Bool
  | .jnull => false
  | .jbool b => b
  | .jnum q => q ≠ 0
  | .jstr s => s ≠ ""
  | .jarr l => !l.isEmpty
  | .jobj l => !l.isEmpty

/-- Truthiness of `payload.get(key)` on a dict payload. -/
def jobjGetTruthy (v : JValue) (k : String) : Bool :=
  match v with
  | .jobj l =>
    match alGet? l k with
    | some x => pyTruthyJ x
    | none => false
  | _ => false

/-! ## The gate agent (src/agents/prescreen.py)

`_execute` wraps search, LLM analysis and the state update in one
try/except; any exception falls into `_set_default_result`.  The search and
analysis collaborators are environment-supplied: `search` either returns the
appended `SearchSource` records or raises after having appended a partial
list, and `analysis` is the parsed analysis dict (its own internal failures
already substituted by `_create_default_analysis`, which yields
`passed=False`) or an exception. -/

/-- The fields of the parsed prescreen analysis dict that `_update_state`
reads (each `.get` with a default, hence `Option`). -/
structure PrescreenAnalysis where
  passed : Option Bool
  confidence : Option ℚ
  reason : Option String
  positive_factors : Option JValue
  negative_factors : Option JValue
  information_quality : Option JValue
  recommendation : Option JValue
  key_findings : Option JValue

/-- Collaborator outcomes for one prescreen execution.
`rejection_report` models `_generate_rejection_report` (report text
formatting is a collaborator per the spec's scope). -/
structure PrescreenEnv where
  search : Except (String × List SearchSource) (List SearchSource)
  analysis : Except String PrescreenAnalysis
  rejection_report : String → String → PrescreenAnalysis → String

/-- Models `PreScreenAgent._update_state`. -/
def prescreen_update_state (env : PrescreenEnv) (st : VState)
    (a : PrescreenAnalysis) : VState :=
  let passed := a.passed.getD false
  let st :=
    { st with
      prescreen_passed := passed
      prescreen_reason := a.reason.getD "未提供具体理由"
      prescreen_confidence := some (a.confidence.getD (1 / 2))
      scores := alSet st.scores "prescreen"
        [("overall", if passed then 8 else 3),
         ("confidence", a.confidence.getD (1 / 2))]
      rationale := alSet st.rationale "prescreen"
        [("reason", .jstr (a.reason.getD "")),
         ("positive_factors", a.positive_factors.getD (.jarr [])),
         ("negative_factors", a.negative_factors.getD (.jarr [])),
         ("information_quality",
           a.information_quality.getD (.jstr "medium")),
         ("recommendation", a.recommendation.getD (.jstr "")),
         ("key_findings", a.key_findings.getD (.jobj []))] }
  if !passed then
    { st with
      final_report := some (env.rejection_report st.company_name
        (a.reason.getD "未通过预筛选") a) }
  else st

/-- Models `PreScreenAgent._set_default_result`. -/
def prescreen_set_default (st : VState) (company_name error_msg : String) :
    VState :=
  { st with
    prescreen_passed := false
    prescreen_reason := "分析过程出错: " ++ error_msg
    prescreen_confidence := some (3 / 10)
    scores := alSet st.scores "prescreen"
      [("overall", 3), ("confidence", 3 / 10)]
    rationale := alSet st.rationale "prescreen"
      [("reason", .jstr ("无法完成对" ++ company_name ++ "的预筛选分析")),
       ("positive_factors", .jarr []),
       ("negative_factors", .jarr [.jstr "分析过程出现技术问题"]),
       ("information_quality", .jstr "low"),
       ("recommendation", .jstr "建议重新分析或寻找更多信息来源")] }

/-- Models `PreScreenAgent._execute`. -/
def prescreen_execute (env : PrescreenEnv) (st : VState) : VState :=
  match env.search with
  | .error (e, partSrcs) =>
    prescreen_set_default { st with sources := st.sources ++ partSrcs }
      st.company_name e
  | .ok srcs =>
    let st := { st with sources := st.sources ++ srcs }
    match env.analysis with
    | .error e => prescreen_set_default st st.company_name e
    | .ok a => prescreen_update_state env st a

/-! ## The due-diligence agents (src/agents/industry_dd.py, team_dd.py,
fin_dd.py, risk_dd.py)

The four agents share the same `_execute` shape, differing only in their
category name, search queries/prompts (collaborators) and the
category-specific extra rationale keys; `dd_execute cat` embeds that shape.
All internal failures are substituted by `_create_default_analysis`, so the
stage transform is total. -/

/-- The parsed analysis dict of a DD agent as its `_update_state` reads
it. -/
structure DDAnalysis where
  scores : List (String × ℚ)
  rationale : List (String × JValue)

/-- Collaborator outcomes for one DD stage execution: the appended search
records, the analysis (real or default), and the category-specific extra
rationale entries (`industry_identified` etc.). -/
structure DDEnv where
  srcs : List SearchSource
  analysis : DDAnalysis
  extras : List (String × JValue)

/-- The shared `_update_state` of the four DD agents. -/
def dd_update_state (cat : String) (env : DDEnv) (st : VState) : VState :=
  let sc0 := (alGet? st.scores cat).getD []
  let ra0 := (alGet? st.rationale cat).getD []
  { st with
    scores := alSet st.scores cat (alUpdate sc0 env.analysis.scores)
    rationale := alSet st.rationale cat
      (alUpdate (alUpdate ra0 env.analysis.rationale) env.extras) }

/-- The shared `_execute` of the four DD agents: skip when the gate failed,
otherwise record the searches and apply the analysis. -/
def dd_execute (cat : String) (env : DDEnv) (st : VState) : VState :=
  if !st.prescreen_passed then st
  else
    dd_update_state cat env { st with sources := st.sources ++ env.srcs }

/-! ## The BP-parsing agent (src/agents/bp_parser.py) -/

/-- Collaborator outcomes for one BP-parsing execution: whether the file
exists on disk, and the extraction outcome (`.ok none` models empty
extracted content, `.error` an exception). -/
structure BpEnv where
  file_exists : Bool
  outcome : Except String (Option JValue)

/-- Models `BPParserAgent._execute`. -/
def bp_execute (env : BpEnv) (st : VState) : VState :=
  if pyFalsyOptStr st.bp_file_path || !env.file_exists then st
  else
    match env.outcome with
    | .error e => { st with bp_extracted_data := .jobj [("error", .jstr e)] }
    | .ok none => st
    | .ok (some data) => { st with bp_extracted_data := data }

/-! ## The cross-check agent (src/agents/cross_check.py) -/

/-- Collaborator outcomes for one cross-check execution. -/
structure CrossEnv where
  srcs : List SearchSource
  result : JValue

/-- Models `CrossCheckAgent._execute`. -/
def cross_execute (env : CrossEnv) (st : VState) : VState :=
  if !st.prescreen_passed then st
  else if !pyTruthyJ st.bp_extracted_data ||
      jobjGetTruthy st.bp_extracted_data "error" then
    { st with
      cross_check_results :=
        .jobj [("status", .jstr "skipped"),
               ("reason", .jstr "No BP data available")] }
  else
    { st with
      sources := st.sources ++ env.srcs
      cross_check_results := env.result }

/-! ## The terminal reporting agent (src/report/report_generator.py) -/

/-- Collaborator outcomes for one report generation: the rejection text and
the comprehensive text (text formatting is a collaborator; the comprehensive
text is a function of the computed overall score and the state). -/
structure ReportEnv where
  simple_rejection : String → String → String
  comprehensive : ℚ → VState → String

/-- Models `ReportGeneratorAgent._execute`: on a failed gate, fill `final_report`
only when it is unset (falsy); otherwise build the comprehensive report from
the weighted overall score. -/
def report_execute (env : ReportEnv) (st : VState) : VState :=
  if !st.prescreen_passed then
    if !pyTruthyOptStr st.final_report then
      { st with
        final_report := some (env.simple_rejection st.company_name
          st.prescreen_reason) }
    else st
  else
    { st with
      final_report := some (env.comprehensive
        (calculate_overall_score st.scores) st) }

/-! ## Stage execution wrapper and coordinator (src/agents/base.py
`_execute_wrapper`, src/graph.py `VentureLensWorkflow.run`) -/

/-- Models `BaseAgent._execute_wrapper`: mark the current agent, run the transform,
append the agent to `completed_agents` on success, refresh `updated_at`; on
an exception mark `current_agent` with the `_error` suffix and refresh
`updated_at` without marking completion. -/
def execute_wrapper (name : String) (tf : VState → Except String VState)
    (now : PyDatetime) (st : VState) : VState :=
  let st := { st with current_agent := name }
  match tf st with
  | .ok updated =>
    let updated :=
      if name ∈ updated.completed_agents then updated
      else { updated with
             completed_agents := updated.completed_agents ++ [name] }
    update_state_timestamp updated now
  | .error _ =>
    update_state_timestamp { st with current_agent := name ++ "_error" } now

/-- The full collaborator environment of one workflow run. -/
structure WorkflowEnv where
  checkpoint_enabled : Bool
  checkpoint_store : String → Option SerializedState
  fresh_run_id : String
  init_now : PyDatetime
  nowFor : String → PyDatetime
  prescreenEnv : PrescreenEnv
  bpEnv : BpEnv
  industryEnv : DDEnv
  teamEnv : DDEnv
  finEnv : DDEnv
  riskEnv : DDEnv
  crossEnv : CrossEnv
  reportEnv : ReportEnv

/-- The fixed `execution_order` of `VentureLensWorkflow`. -/
def execution_order : List String :=
  ["prescreen", "bp_parser", "industry_dd", "team_dd", "fin_dd", "risk_dd",
   "cross_check", "report_generator"]

/-- The `self.agents` dispatch: each stage's transform.  All the agents'
`_execute` bodies contain their own exception handling, so every transform
returns `.ok`; a name outside the table would be a `KeyError` in Python. -/
def agent_tf (env : WorkflowEnv) : String → VState → Except String VState
  | "prescreen" => fun st => .ok (prescreen_execute env.prescreenEnv st)
  | "bp_parser" => fun st => .ok (bp_execute env.bpEnv st)
  | "industry_dd" => fun st => .ok (dd_execute "industry" env.industryEnv st)
  | "team_dd" => fun st => .ok (dd_execute "team" env.teamEnv st)
  | "fin_dd" => fun st => .ok (dd_execute "financial" env.finEnv st)
  | "risk_dd" => fun st => .ok (dd_execute "risk" env.riskEnv st)
  | "cross_check" => fun st => .ok (cross_execute env.crossEnv st)
  | "report_generator" => fun st => .ok (report_execute env.reportEnv st)
  | _ => fun _ => .error "unknown agent"

/-- One wrapped stage invocation inside the run loop. -/
def invoke_stage (env : WorkflowEnv) (name : String) (st : VState) : VState :=
  execute_wrapper name (agent_tf env name) (env.nowFor name) st

/-- The outcome of a run: the final state, the names whose wrappers were
invoked in order (instrumentation), and the checkpoints saved
(instrumentation for `_save_checkpoint`, which never alters the state). -/
structure RunOutcome where
  state : VState
  invoked : List String
  saved : List SerializedState

/-- The `for agent_name in self.execution_order` loop of
`VentureLensWorkflow.run`: skip completed stages, skip `bp_parser` without a
BP file, execute, checkpoint, and short-circuit to the report stage when the
gate fails. -/
def run_stages (env : WorkflowEnv) (bp_file_path : Option String) :
    List String → VState → RunOutcome
  | [], st => ⟨st, [], []⟩
  | name :: rest, st =>
    if name ∈ st.completed_agents then run_stages env bp_file_path rest st
    else if name = "bp_parser" && pyFalsyOptStr bp_file_path then
      run_stages env bp_file_path rest st
    else
      let st' := invoke_stage env name st
      let saves := if env.checkpoint_enabled then [serialize_state st'] else []
      if name = "prescreen" && !st'.prescreen_passed then
        let st'' := invoke_stage env "report_generator" st'
        ⟨st'', [name, "report_generator"], saves⟩
      else
        let r := run_stages env bp_file_path rest st'
        ⟨r.state, name :: r.invoked, saves ++ r.saved⟩

/-- Models `VentureLensWorkflow._load_checkpoint`: read and deserialize; any error
yields `None`. -/
def load_checkpoint (env : WorkflowEnv) (rid : String) : Option VState :=
  match env.checkpoint_store rid with
  | none => none
  | some ser => deserialize_state ser

/-- Models `VentureLensWorkflow.run`: resume from a checkpoint when a truthy
`run_id` is supplied and checkpointing is enabled, otherwise start fresh;
then drive the stage loop. -/
def workflow_run (env : WorkflowEnv) (company_name : String)
    (bp_file_path : Option String) (run_id : Option String) : RunOutcome :=
  let st :=
    if pyTruthyOptStr run_id && env.checkpoint_enabled then
      match load_checkpoint env (run_id.getD "") with
      | some st => st
      | none =>
        create_initial_state company_name bp_file_path run_id
          env.fresh_run_id env.init_now
    else
      create_initial_state company_name bp_file_path run_id env.fresh_run_id
        env.init_now
  run_stages env bp_file_path execution_order st

/-! ## Per-stage preservation lemmas -/

/-- The four due-diligence score/rationale categories. -/
def ddCats : List String := ["industry", "team", "financial", "risk"]

theorem prescreen_execute_completed (env : PrescreenEnv) (st : VState) :
    (prescreen_execute env st).completed_agents = st.completed_agents := by
  unfold prescreen_execute
  rcases hs : env.search with ⟨e, ps⟩ | srcs
  · rfl
  · rcases ha : env.analysis with e | a
    · rfl
    · unfold prescreen_update_state
      dsimp only
      split <;> rfl

theorem prescreen_execute_dd_lookups (env : PrescreenEnv) (st : VState)
    (cat : String) (hcat : cat ≠ "prescreen") :
    alGet? (prescreen_execute env st).scores cat = alGet? st.scores cat ∧
    alGet? (prescreen_execute env st).rationale cat
      = alGet? st.rationale cat := by
  unfold prescreen_execute
  rcases hs : env.search with ⟨e, ps⟩ | srcs
  · unfold prescreen_set_default
    exact ⟨alGet?_alSet_ne _ _ _ _ (Ne.symm hcat), alGet?_alSet_ne _ _ _ _ (Ne.symm hcat)⟩
  · rcases ha : env.analysis with e | a
    · unfold prescreen_set_default
      exact ⟨alGet?_alSet_ne _ _ _ _ (Ne.symm hcat), alGet?_alSet_ne _ _ _ _ (Ne.symm hcat)⟩
    · unfold prescreen_update_state
      dsimp only
      split <;>
        exact ⟨alGet?_alSet_ne _ _ _ _ (Ne.symm hcat), alGet?_alSet_ne _ _ _ _ (Ne.symm hcat)⟩

/-- A gate-failing prescreen environment: the search or the analysis raises,
or the parsed analysis has a falsy `passed`. -/
def PrescreenGateFails (env : PrescreenEnv) : Prop :=
  match env.search with
  | .error _ => True
  | .ok _ =>
    match env.analysis with
    | .error _ => True
    | .ok a => a.passed.getD false = false

theorem prescreen_execute_gate_fails (env : PrescreenEnv) (st : VState)
    (h : PrescreenGateFails env) :
    (prescreen_execute env st).prescreen_passed = false := by
  unfold PrescreenGateFails at h
  unfold prescreen_execute
  rcases hs : env.search with ⟨e, ps⟩ | srcs
  · rfl
  · rw [hs] at h
    rcases ha : env.analysis with e | a
    · rfl
    · rw [ha] at h
      unfold prescreen_update_state
      dsimp only
      rw [h]
      simp

theorem dd_execute_gate_false (cat : String) (env : DDEnv) (st : VState)
    (h : st.prescreen_passed = false) : dd_execute cat env st = st := by
  unfold dd_execute
  rw [h]
  rfl

theorem dd_execute_preserves (cat : String) (env : DDEnv) (st : VState) :
    (dd_execute cat env st).completed_agents = st.completed_agents ∧
    (dd_execute cat env st).prescreen_passed = st.prescreen_passed ∧
    (dd_execute cat env st).final_report = st.final_report := by
  unfold dd_execute dd_update_state
  split <;> exact ⟨rfl, rfl, rfl⟩

theorem bp_execute_preserves (env : BpEnv) (st : VState) :
    (bp_execute env st).completed_agents = st.completed_agents ∧
    (bp_execute env st).prescreen_passed = st.prescreen_passed ∧
    (bp_execute env st).final_report = st.final_report ∧
    (bp_execute env st).scores = st.scores ∧
    (bp_execute env st).rationale = st.rationale := by
  unfold bp_execute
  split
  · exact ⟨rfl, rfl, rfl, rfl, rfl⟩
  · rcases env.outcome with e | (_ | d) <;> exact ⟨rfl, rfl, rfl, rfl, rfl⟩

theorem cross_execute_preserves (env : CrossEnv) (st : VState) :
    (cross_execute env st).completed_agents = st.completed_agents ∧
    (cross_execute env st).prescreen_passed = st.prescreen_passed ∧
    (cross_execute env st).final_report = st.final_report ∧
    (cross_execute env st).scores = st.scores ∧
    (cross_execute env st).rationale = st.rationale := by
  unfold cross_execute
  split
  · exact ⟨rfl, rfl, rfl, rfl, rfl⟩
  · split <;> exact ⟨rfl, rfl, rfl, rfl, rfl⟩

theorem report_execute_preserves (env : ReportEnv) (st : VState) :
    (report_execute env st).completed_agents = st.completed_agents ∧
    (report_execute env st).prescreen_passed = st.prescreen_passed ∧
    (report_execute env st).scores = st.scores ∧
    (report_execute env st).rationale = st.rationale := by
  unfold report_execute
  split
  · split <;> exact ⟨rfl, rfl, rfl, rfl⟩
  · exact ⟨rfl, rfl, rfl, rfl⟩

theorem report_execute_sets_final (env : ReportEnv) (st : VState) :
    (report_execute env st).final_report.isSome = true := by
  unfold report_execute
  split
  · split
    · rfl
    · rename_i hgate hset
      unfold pyTruthyOptStr at hset
      rcases hfr : st.final_report with _ | s
      · rw [hfr] at hset
        simp at hset
      · simp [hfr]
  · rfl

/-! ## Wrapper-level effects -/

theorem execute_wrapper_completed_ok (name : String) (f : VState → VState)
    (now : PyDatetime) (st : VState)
    (hcom : (f { st with current_agent := name }).completed_agents
      = st.completed_agents) :
    (execute_wrapper name (fun s => .ok (f s)) now st).completed_agents =
      if name ∈ st.completed_agents then st.completed_agents
      else st.completed_agents ++ [name] := by
  unfold execute_wrapper update_state_timestamp
  dsimp only
  rw [hcom]
  split
  · exact hcom
  · dsimp only


theorem execute_wrapper_ok_fields (name : String) (f : VState → VState)
    (now : PyDatetime) (st : VState) :
    (execute_wrapper name (fun s => .ok (f s)) now st).prescreen_passed
      = (f { st with current_agent := name }).prescreen_passed ∧
    (execute_wrapper name (fun s => .ok (f s)) now st).final_report
      = (f { st with current_agent := name }).final_report ∧
    (execute_wrapper name (fun s => .ok (f s)) now st).scores
      = (f { st with current_agent := name }).scores ∧
    (execute_wrapper name (fun s => .ok (f s)) now st).rationale
      = (f { st with current_agent := name }).rationale := by
  unfold execute_wrapper update_state_timestamp
  dsimp only
  split <;> exact ⟨rfl, rfl, rfl, rfl⟩

/-- Generic shape of one wrapped stage invocation for any agent whose
transform is total and preserves `completed_agents`. -/
theorem invoke_fields_generic (env : WorkflowEnv) (name : String)
    (f : VState → VState)
    (hag : agent_tf env name = fun s => .ok (f s)) (st : VState)
    (hcom : (f { st with current_agent := name }).completed_agents
      = st.completed_agents) :
    st.completed_agents ⊆ (invoke_stage env name st).completed_agents ∧
    name ∈ (invoke_stage env name st).completed_agents ∧
    (∀ n ∈ (invoke_stage env name st).completed_agents,
      n ∈ st.completed_agents ∨ n = name) ∧
    (invoke_stage env name st).prescreen_passed
      = (f { st with current_agent := name }).prescreen_passed ∧
    (invoke_stage env name st).final_report
      = (f { st with current_agent := name }).final_report ∧
    (invoke_stage env name st).scores
      = (f { st with current_agent := name }).scores ∧
    (invoke_stage env name st).rationale
      = (f { st with current_agent := name }).rationale := by
  have hinv : invoke_stage env name st
      = execute_wrapper name (fun s => .ok (f s)) (env.nowFor name) st := by
    unfold invoke_stage
    rw [hag]
  have hcompleted := execute_wrapper_completed_ok name f (env.nowFor name)
    st hcom
  have hflds := execute_wrapper_ok_fields name f (env.nowFor name) st
  rw [hinv]
  refine ⟨?_, ?_, ?_, hflds.1, hflds.2.1, hflds.2.2.1, hflds.2.2.2⟩
  · rw [hcompleted]
    split
    · exact fun n h => h
    · exact fun n h => List.mem_append_left _ h
  · rw [hcompleted]
    split
    · assumption
    · exact List.mem_append_right _ (by simp)
  · rw [hcompleted]
    split
    · exact fun n h => Or.inl h
    · intro n h
      rcases List.mem_append.mp h with h1 | h1
      · exact Or.inl h1
      · exact Or.inr (by simpa using h1)

/-- The effects of one wrapped stage invocation, for every stage of the
execution order: `completed_agents` grows by at most (and, after the stage,
at least) the stage's own name; every stage but the gate preserves
`gate_passed`; only the gate and the reporting stage touch `final_report`;
with a failed gate no stage touches the DD score/rationale categories; and
the reporting stage leaves `final_report` set. -/
theorem invoke_stage_effects (env : WorkflowEnv) (name : String)
    (hname : name ∈ execution_order) (st : VState) :
    st.completed_agents ⊆ (invoke_stage env name st).completed_agents ∧
    name ∈ (invoke_stage env name st).completed_agents ∧
    (∀ n ∈ (invoke_stage env name st).completed_agents,
      n ∈ st.completed_agents ∨ n = name) ∧
    (name ≠ "prescreen" →
      (invoke_stage env name st).prescreen_passed = st.prescreen_passed) ∧
    (name ≠ "prescreen" → name ≠ "report_generator" →
      (invoke_stage env name st).final_report = st.final_report) ∧
    (st.prescreen_passed = false → ∀ cat ∈ ddCats,
      alGet? (invoke_stage env name st).scores cat = alGet? st.scores cat ∧
      alGet? (invoke_stage env name st).rationale cat
        = alGet? st.rationale cat) ∧
    (name = "report_generator" →
      (invoke_stage env name st).final_report.isSome = true) := by
  have hmem : name = "prescreen" ∨ name = "bp_parser" ∨
      name = "industry_dd" ∨ name = "team_dd" ∨ name = "fin_dd" ∨
      name = "risk_dd" ∨ name = "cross_check" ∨
      name = "report_generator" := by
    simpa [execution_order] using hname
  rcases hmem with rfl | rfl | rfl | rfl | rfl | rfl | rfl | rfl
  · -- prescreen
    have hg := invoke_fields_generic env "prescreen"
      (prescreen_execute env.prescreenEnv) rfl st
      (prescreen_execute_completed env.prescreenEnv _)
    refine ⟨hg.1, hg.2.1, hg.2.2.1, fun h => absurd rfl h, fun h _ =>
      absurd rfl h, fun _ cat hcat => ?_, fun h => by simp at h⟩
    have hcat' : cat ≠ "prescreen" := by
      rcases (by simpa [ddCats] using hcat : cat = "industry" ∨
        cat = "team" ∨ cat = "financial" ∨ cat = "risk") with
        rfl | rfl | rfl | rfl <;> decide
    have hl := prescreen_execute_dd_lookups env.prescreenEnv
      { st with current_agent := "prescreen" } cat hcat'
    exact ⟨by rw [hg.2.2.2.2.2.1]; exact hl.1,
      by rw [hg.2.2.2.2.2.2]; exact hl.2⟩
  · -- bp_parser
    have hb := bp_execute_preserves env.bpEnv
      { st with current_agent := "bp_parser" }
    have hg := invoke_fields_generic env "bp_parser"
      (bp_execute env.bpEnv) rfl st hb.1
    refine ⟨hg.1, hg.2.1, hg.2.2.1, fun _ => by rw [hg.2.2.2.1]; exact
      hb.2.1, fun _ _ => by rw [hg.2.2.2.2.1]; exact hb.2.2.1,
      fun _ cat _ => ?_, fun h => by simp at h⟩
    rw [hg.2.2.2.2.2.1, hg.2.2.2.2.2.2, hb.2.2.2.1, hb.2.2.2.2]
    exact ⟨rfl, rfl⟩
  · -- industry_dd
    have hd := dd_execute_preserves "industry" env.industryEnv
      { st with current_agent := "industry_dd" }
    have hg := invoke_fields_generic env "industry_dd"
      (dd_execute "industry" env.industryEnv) rfl st hd.1
    refine ⟨hg.1, hg.2.1, hg.2.2.1, fun _ => by rw [hg.2.2.2.1]; exact
      hd.2.1, fun _ _ => by rw [hg.2.2.2.2.1]; exact hd.2.2,
      fun hgate cat _ => ?_, fun h => by simp at h⟩
    have hid := dd_execute_gate_false "industry" env.industryEnv
      { st with current_agent := "industry_dd" } hgate
    rw [hg.2.2.2.2.2.1, hg.2.2.2.2.2.2, hid]
    exact ⟨rfl, rfl⟩
  · -- team_dd
    have hd := dd_execute_preserves "team" env.teamEnv
      { st with current_agent := "team_dd" }
    have hg := invoke_fields_generic env "team_dd"
      (dd_execute "team" env.teamEnv) rfl st hd.1
    refine ⟨hg.1, hg.2.1, hg.2.2.1, fun _ => by rw [hg.2.2.2.1]; exact
      hd.2.1, fun _ _ => by rw [hg.2.2.2.2.1]; exact hd.2.2,
      fun hgate cat _ => ?_, fun h => by simp at h⟩
    have hid := dd_execute_gate_false "team" env.teamEnv
      { st with current_agent := "team_dd" } hgate
    rw [hg.2.2.2.2.2.1, hg.2.2.2.2.2.2, hid]
    exact ⟨rfl, rfl⟩
  · -- fin_dd
    have hd := dd_execute_preserves "financial" env.finEnv
      { st with current_agent := "fin_dd" }
    have hg := invoke_fields_generic env "fin_dd"
      (dd_execute "financial" env.finEnv) rfl st hd.1
    refine ⟨hg.1, hg.2.1, hg.2.2.1, fun _ => by rw [hg.2.2.2.1]; exact
      hd.2.1, fun _ _ => by rw [hg.2.2.2.2.1]; exact hd.2.2,
      fun hgate cat _ => ?_, fun h => by simp at h⟩
    have hid := dd_execute_gate_false "financial" env.finEnv
      { st with current_agent := "fin_dd" } hgate
    rw [hg.2.2.2.2.2.1, hg.2.2.2.2.2.2, hid]
    exact ⟨rfl, rfl⟩
  · -- risk_dd
    have hd := dd_execute_preserves "risk" env.riskEnv
      { st with current_agent := "risk_dd" }
    have hg := invoke_fields_generic env "risk_dd"
      (dd_execute "risk" env.riskEnv) rfl st hd.1
    refine ⟨hg.1, hg.2.1, hg.2.2.1, fun _ => by rw [hg.2.2.2.1]; exact
      hd.2.1, fun _ _ => by rw [hg.2.2.2.2.1]; exact hd.2.2,
      fun hgate cat _ => ?_, fun h => by simp at h⟩
    have hid := dd_execute_gate_false "risk" env.riskEnv
      { st with current_agent := "risk_dd" } hgate
    rw [hg.2.2.2.2.2.1, hg.2.2.2.2.2.2, hid]
    exact ⟨rfl, rfl⟩
  · -- cross_check
    have hc := cross_execute_preserves env.crossEnv
      { st with current_agent := "cross_check" }
    have hg := invoke_fields_generic env "cross_check"
      (cross_execute env.crossEnv) rfl st hc.1
    refine ⟨hg.1, hg.2.1, hg.2.2.1, fun _ => by rw [hg.2.2.2.1]; exact
      hc.2.1, fun _ _ => by rw [hg.2.2.2.2.1]; exact hc.2.2.1,
      fun _ cat _ => ?_, fun h => by simp at h⟩
    rw [hg.2.2.2.2.2.1, hg.2.2.2.2.2.2, hc.2.2.2.1, hc.2.2.2.2]
    exact ⟨rfl, rfl⟩
  · -- report_generator
    have hr := report_execute_preserves env.reportEnv
      { st with current_agent := "report_generator" }
    have hg := invoke_fields_generic env "report_generator"
      (report_execute env.reportEnv) rfl st hr.1
    refine ⟨hg.1, hg.2.1, hg.2.2.1, fun _ => by rw [hg.2.2.2.1]; exact
      hr.2.1, fun _ h => absurd rfl h, fun _ cat _ => ?_, fun _ => ?_⟩
    · rw [hg.2.2.2.2.2.1, hg.2.2.2.2.2.2, hr.2.2.1, hr.2.2.2]
      exact ⟨rfl, rfl⟩
    · rw [hg.2.2.2.2.1]
      exact report_execute_sets_final env.reportEnv _

/-! ## Run-loop invariants -/

/-- Once the gate stage is recorded as completed, the rest of a run never
touches `gate_passed`. -/
theorem run_stages_gate_preserved (env : WorkflowEnv) (bp : Option String) :
    ∀ names, (∀ n ∈ names, n ∈ execution_order) →
      ∀ st, "prescreen" ∈ st.completed_agents →
        (run_stages env bp names st).state.prescreen_passed
          = st.prescreen_passed := by
  intro names
  induction names with
  | nil => intro _ st _; rfl
  | cons name rest ih =>
    intro hsub st hpre
    have hname : name ∈ execution_order := hsub name (by simp)
    have hrest : ∀ m ∈ rest, m ∈ execution_order := fun m hm =>
      hsub m (by simp [hm])
    simp only [run_stages]
    split
    · exact ih hrest st hpre
    · split
      · exact ih hrest st hpre
      · rename_i hskip hbp
        have hne : name ≠ "prescreen" := fun h => hskip (h ▸ hpre)
        have heff := invoke_stage_effects env name hname st
        have hbreak : ((name = "prescreen" : Bool) &&
            !(invoke_stage env name st).prescreen_passed) = false := by
          simp [hne]
        rw [if_neg (by simp [hbreak, hne])]
        dsimp only
        rw [ih hrest (invoke_stage env name st) (heff.1 hpre),
          heff.2.2.2.1 hne]

/-- Every stage the loop invokes was not yet completed when the run
started; the only stage invoked outside the loop's own completion check is
the reporting stage on the gate-break path, which can only fire when the
gate stage itself was not yet completed. -/
theorem run_stages_invoked_spec (env : WorkflowEnv) (bp : Option String)
    (C : List String) :
    ∀ names, (∀ n ∈ names, n ∈ execution_order) →
      ∀ st, (∀ n ∈ C, n ∈ st.completed_agents) →
        ∀ n ∈ (run_stages env bp names st).invoked,
          n ∉ C ∨ (n = "report_generator" ∧ "prescreen" ∉ C) := by
  intro names
  induction names with
  | nil => intro _ st _ n hn; simp [run_stages] at hn
  | cons name rest ih =>
    intro hsub st hC n hn
    have hname : name ∈ execution_order := hsub name (by simp)
    have hrest : ∀ m ∈ rest, m ∈ execution_order := fun m hm =>
      hsub m (by simp [hm])
    have heff := invoke_stage_effects env name hname st
    simp only [run_stages] at hn
    split at hn
    · exact ih hrest st hC n hn
    · split at hn
      · exact ih hrest st hC n hn
      · rename_i hskip hbp
        have hnC : name ∉ C := fun h => hskip (hC name h)
        split at hn
        · rename_i hbreak
          obtain ⟨hpre, -⟩ : name = "prescreen" ∧
              (invoke_stage env name st).prescreen_passed = false := by
            simpa using hbreak
          dsimp only at hn
          rcases (by simpa using hn : n = name ∨ n = "report_generator")
            with rfl | rfl
          · exact Or.inl hnC
          · exact Or.inr ⟨rfl, fun h => hnC (hpre ▸ h)⟩
        · dsimp only at hn
          rcases (by simpa using hn :
              n = name ∨ n ∈ (run_stages env bp rest
                (invoke_stage env name st)).invoked) with rfl | hmem
          · exact Or.inl hnC
          · exact ih hrest (invoke_stage env name st)
              (fun m hm => heff.1 (hC m hm)) n hmem

/-- The first stage the loop invokes is the first listed stage that is
neither already completed nor a document-parsing stage skipped for lack of
a document. -/
theorem run_stages_invoked_head (env : WorkflowEnv) (bp : Option String) :
    ∀ names st,
      (run_stages env bp names st).invoked.head? =
        names.find? (fun m => !(st.completed_agents.contains m) &&
          !((m == "bp_parser") && pyFalsyOptStr bp)) := by
  intro names
  induction names with
  | nil => intro st; rfl
  | cons name rest ih =>
    intro st
    simp only [run_stages, List.find?]
    split
    · rename_i hskip
      have hcon : st.completed_agents.contains name = true := by
        simpa using hskip
      rw [hcon]
      simpa using ih st
    · split
      · rename_i hskip hbp
        have hcon : st.completed_agents.contains name = false := by
          simpa using hskip
        have hbp' : ((name == "bp_parser") && pyFalsyOptStr bp) = true := by
          simpa using hbp
        rw [hcon, hbp']
        simpa using ih st
      · rename_i hskip hbp
        have hcon : st.completed_agents.contains name = false := by
          simpa using hskip
        have hbp' : ((name == "bp_parser") && pyFalsyOptStr bp) = false := by
          simpa using hbp
        rw [hcon, hbp']
        simp only [Bool.not_false, Bool.and_self, if_pos rfl]
        split <;> rfl

/-- With a failed, already-completed gate, the loop leaves `gate_passed`
false and never adds or changes a DD category's scores or rationale. -/
theorem run_stages_gate_false_invariant (env : WorkflowEnv)
    (bp : Option String) :
    ∀ names, (∀ n ∈ names, n ∈ execution_order) →
      ∀ st, st.prescreen_passed = false →
        "prescreen" ∈ st.completed_agents →
        (run_stages env bp names st).state.prescreen_passed = false ∧
        (∀ cat ∈ ddCats,
          alGet? (run_stages env bp names st).state.scores cat
            = alGet? st.scores cat ∧
          alGet? (run_stages env bp names st).state.rationale cat
            = alGet? st.rationale cat) := by
  intro names
  induction names with
  | nil => intro _ st hgate _; exact ⟨hgate, fun _ _ => ⟨rfl, rfl⟩⟩
  | cons name rest ih =>
    intro hsub st hgate hpre
    have hname : name ∈ execution_order := hsub name (by simp)
    have hrest : ∀ m ∈ rest, m ∈ execution_order := fun m hm =>
      hsub m (by simp [hm])
    simp only [run_stages]
    split
    · exact ih hrest st hgate hpre
    · split
      · exact ih hrest st hgate hpre
      · rename_i hskip hbp
        have hne : name ≠ "prescreen" := fun h => hskip (h ▸ hpre)
        have heff := invoke_stage_effects env name hname st
        rw [if_neg (by simp [hne])]
        dsimp only
        have hgate' : (invoke_stage env name st).prescreen_passed = false :=
          (heff.2.2.2.1 hne).trans hgate
        have hrec := ih hrest (invoke_stage env name st) hgate'
          (heff.1 hpre)
        refine ⟨hrec.1, fun cat hcat => ?_⟩
        have h1 := (hrec.2 cat hcat)
        have h2 := heff.2.2.2.2.2.1 hgate cat hcat
        exact ⟨h1.1.trans h2.1, h1.2.trans h2.2⟩

/-- With a failed, already-completed gate, a set `final_report` stays set
through the rest of the loop. -/
theorem run_stages_final_some (env : WorkflowEnv) (bp : Option String) :
    ∀ names, (∀ n ∈ names, n ∈ execution_order) →
      ∀ st, st.prescreen_passed = false →
        "prescreen" ∈ st.completed_agents →
        st.final_report.isSome = true →
        (run_stages env bp names st).state.final_report.isSome = true := by
  intro names
  induction names with
  | nil => intro _ st _ _ h; exact h
  | cons name rest ih =>
    intro hsub st hgate hpre hsome
    have hname : name ∈ execution_order := hsub name (by simp)
    have hrest : ∀ m ∈ rest, m ∈ execution_order := fun m hm =>
      hsub m (by simp [hm])
    simp only [run_stages]
    split
    · exact ih hrest st hgate hpre hsome
    · split
      · exact ih hrest st hgate hpre hsome
      · rename_i hskip hbp
        have hne : name ≠ "prescreen" := fun h => hskip (h ▸ hpre)
        have heff := invoke_stage_effects env name hname st
        rw [if_neg (by simp [hne])]
        dsimp only
        have hgate' : (invoke_stage env name st).prescreen_passed = false :=
          (heff.2.2.2.1 hne).trans hgate
        have hsome' : (invoke_stage env name st).final_report.isSome
            = true := by
          by_cases hrep : name = "report_generator"
          · exact heff.2.2.2.2.2.2 hrep
          · rw [heff.2.2.2.2.1 hne hrep]
            exact hsome
        exact ih hrest (invoke_stage env name st) hgate' (heff.1 hpre)
          hsome'

/-- With a failed, already-completed gate and a not-yet-completed reporting
stage, the loop still invokes the reporting stage and ends with
`final_report` set. -/
theorem run_stages_report_runs (env : WorkflowEnv) (bp : Option String) :
    ∀ names, (∀ n ∈ names, n ∈ execution_order) →
      "report_generator" ∈ names →
      ∀ st, st.prescreen_passed = false →
        "prescreen" ∈ st.completed_agents →
        "report_generator" ∉ st.completed_agents →
        "report_generator" ∈ (run_stages env bp names st).invoked ∧
        (run_stages env bp names st).state.final_report.isSome = true := by
  intro names
  induction names with
  | nil => intro _ h; simp at h
  | cons name rest ih =>
    intro hsub hmem st hgate hpre hnrep
    have hname : name ∈ execution_order := hsub name (by simp)
    have hrest : ∀ m ∈ rest, m ∈ execution_order := fun m hm =>
      hsub m (by simp [hm])
    simp only [run_stages]
    split
    · rename_i hskip
      have hnr : name ≠ "report_generator" := fun h => hnrep (h ▸ hskip)
      have hmem' : "report_generator" ∈ rest := by
        rcases List.mem_cons.mp hmem with h | h
        · exact absurd h.symm hnr
        · exact h
      exact ih hrest hmem' st hgate hpre hnrep
    · split
      · rename_i hskip hbp
        have hnr : name ≠ "report_generator" := by
          have : (name == "bp_parser") = true :=
            Bool.and_elim_left (by simpa using hbp)
          intro h
          rw [h] at this
          simp at this
        have hmem' : "report_generator" ∈ rest := by
          rcases List.mem_cons.mp hmem with h | h
          · exact absurd h.symm hnr
          · exact h
        exact ih hrest hmem' st hgate hpre hnrep
      · rename_i hskip hbp
        have hne : name ≠ "prescreen" := fun h => hskip (h ▸ hpre)
        have heff := invoke_stage_effects env name hname st
        rw [if_neg (by simp [hne])]
        dsimp only
        have hgate' : (invoke_stage env name st).prescreen_passed = false :=
          (heff.2.2.2.1 hne).trans hgate
        have hpre' :
            "prescreen" ∈ (invoke_stage env name st).completed_agents :=
          heff.1 hpre
        by_cases hrep : name = "report_generator"
        · subst hrep
          refine ⟨by simp, ?_⟩
          exact run_stages_final_some env bp rest hrest _ hgate' hpre'
            (heff.2.2.2.2.2.2 rfl)
        · have hnrep' : "report_generator" ∉
              (invoke_stage env name st).completed_agents := by
            intro h
            rcases heff.2.2.1 _ h with h1 | h1
            · exact hnrep h1
            · exact hrep h1.symm
          have hmem' : "report_generator" ∈ rest := by
            rcases List.mem_cons.mp hmem with h | h
            · exact absurd h.symm hrep
            · exact h
          have hrec := ih hrest hmem' (invoke_stage env name st) hgate'
            hpre' hnrep'
          exact ⟨by simp [hrec.1], hrec.2⟩

/-- A fresh run whose gate fails reduces to the two-invocation short-circuit
path: the gate stage, an immediate checkpoint, then the reporting stage, and
the loop stops. -/
theorem run_stages_fresh_gate_fail (env : WorkflowEnv) (bp : Option String)
    (st : VState) (h1 : "prescreen" ∉ st.completed_agents)
    (hfail : PrescreenGateFails env.prescreenEnv) :
    run_stages env bp execution_order st =
      ⟨invoke_stage env "report_generator" (invoke_stage env "prescreen" st),
       ["prescreen", "report_generator"],
       if env.checkpoint_enabled then
         [serialize_state (invoke_stage env "prescreen" st)]
       else []⟩ := by
  have hg := invoke_fields_generic env "prescreen"
    (prescreen_execute env.prescreenEnv) rfl st
    (prescreen_execute_completed env.prescreenEnv _)
  have hgate : (invoke_stage env "prescreen" st).prescreen_passed = false :=
    hg.2.2.2.1.trans (prescreen_execute_gate_fails env.prescreenEnv _ hfail)
  simp only [execution_order, run_stages]
  rw [if_neg h1, if_neg (by simp), if_pos (by simp [hgate])]

/-- Claim C1: whenever the gate stage sets `gate_passed` false, every later
DD stage leaves the scores and rationale for its category absent, and the
terminal reporting stage still runs and leaves `final_report` set.  This
holds for fresh runs (where the short-circuit fires) and for resumed runs
loaded from a checkpoint with `gate_passed=false` and the gate already
completed (where each DD stage's own gate guard makes it a no-op), provided
the resumed run is not already terminal (its reporting stage is not yet in
`completed_stages`). -/
theorem C1_gate_short_circuit (env : WorkflowEnv) (company_name : String)
    (bp : Option String) :
    (PrescreenGateFails env.prescreenEnv →
      (∀ cat ∈ ddCats,
        alGet? (workflow_run env company_name bp none).state.scores cat
          = none ∧
        alGet? (workflow_run env company_name bp none).state.rationale cat
          = none) ∧
      "report_generator" ∈ (workflow_run env company_name bp none).invoked ∧
      (workflow_run env company_name bp none).state.final_report.isSome
        = true) ∧
    (∀ run_id st0, pyTruthyOptStr run_id = true →
      env.checkpoint_enabled = true →
      load_checkpoint env (run_id.getD "") = some st0 →
      st0.prescreen_passed = false →
      "prescreen" ∈ st0.completed_agents →
      "report_generator" ∉ st0.completed_agents →
      (∀ cat ∈ ddCats,
        alGet? st0.scores cat = none ∧ alGet? st0.rationale cat = none) →
      (∀ cat ∈ ddCats,
        alGet? (workflow_run env company_name bp run_id).state.scores cat
          = none ∧
        alGet? (workflow_run env company_name bp run_id).state.rationale cat
          = none) ∧
      "report_generator" ∈
        (workflow_run env company_name bp run_id).invoked ∧
      (workflow_run env company_name bp run_id).state.final_report.isSome
        = true) := by
  constructor
  · intro hfail
    have hinit : workflow_run env company_name bp none =
        run_stages env bp execution_order
          (create_initial_state company_name bp none env.fresh_run_id
            env.init_now) := rfl
    set st0 := create_initial_state company_name bp none env.fresh_run_id
      env.init_now with hst0
    rw [hinit, run_stages_fresh_gate_fail env bp st0 (by simp [hst0,
      create_initial_state]) hfail]
    have hord1 : "prescreen" ∈ execution_order := by
      simp [execution_order]
    have hord2 : "report_generator" ∈ execution_order := by
      simp [execution_order]
    have heff1 := invoke_stage_effects env "prescreen" hord1 st0
    have hg := invoke_fields_generic env "prescreen"
      (prescreen_execute env.prescreenEnv) rfl st0
      (prescreen_execute_completed env.prescreenEnv _)
    have hgate1 : (invoke_stage env "prescreen" st0).prescreen_passed
        = false :=
      hg.2.2.2.1.trans
        (prescreen_execute_gate_fails env.prescreenEnv _ hfail)
    have heff2 := invoke_stage_effects env "report_generator" hord2
      (invoke_stage env "prescreen" st0)
    refine ⟨fun cat hcat => ?_, by simp, heff2.2.2.2.2.2.2 rfl⟩
    have h01 := heff1.2.2.2.2.2.1 rfl cat hcat
    have h12 := heff2.2.2.2.2.2.1 hgate1 cat hcat
    exact ⟨h12.1.trans h01.1, h12.2.trans h01.2⟩
  · intro run_id st0 htr hen hload hgate hpre hnrep hdd
    have hrun : workflow_run env company_name bp run_id =
        run_stages env bp execution_order st0 := by
      unfold workflow_run
      rw [htr, hen, hload]
      rfl
    rw [hrun]
    have hsub : ∀ n ∈ execution_order, n ∈ execution_order := fun n hn => hn
    have hinv := run_stages_gate_false_invariant env bp execution_order hsub
      st0 hgate hpre
    have hrep := run_stages_report_runs env bp execution_order hsub
      (by simp [execution_order]) st0 hgate hpre hnrep
    refine ⟨fun cat hcat => ?_, hrep.1, hrep.2⟩
    have h1 := hinv.2 cat hcat
    have h2 := hdd cat hcat
    exact ⟨h1.1.trans h2.1, h1.2.trans h2.2⟩

/-- Claim C2: resuming from an existing readable checkpoint, the coordinator
loads the stored state, never re-invokes a stage already in
`completed_stages` (for checkpoints the coordinator itself can produce,
where the reporting stage is only completed after the gate), continues from
the first stage that is neither completed nor a skipped document-parsing
stage, and does not reset the loaded `gate_passed`. -/
theorem C2_resume_semantics (env : WorkflowEnv) (company_name : String)
    (bp run_id : Option String) (st0 : VState)
    (htr : pyTruthyOptStr run_id = true)
    (hen : env.checkpoint_enabled = true)
    (hload : load_checkpoint env (run_id.getD "") = some st0)
    (hrp : "report_generator" ∈ st0.completed_agents →
      "prescreen" ∈ st0.completed_agents) :
    (∀ n ∈ (workflow_run env company_name bp run_id).invoked,
      n ∉ st0.completed_agents) ∧
    ((workflow_run env company_name bp run_id).invoked.head? =
      execution_order.find? (fun m => !(st0.completed_agents.contains m) &&
        !((m == "bp_parser") && pyFalsyOptStr bp))) ∧
    ("prescreen" ∈ st0.completed_agents →
      (workflow_run env company_name bp run_id).state.prescreen_passed
        = st0.prescreen_passed) := by
  have hrun : workflow_run env company_name bp run_id =
      run_stages env bp execution_order st0 := by
    unfold workflow_run
    rw [htr, hen, hload]
    rfl
  rw [hrun]
  have hsub : ∀ n ∈ execution_order, n ∈ execution_order := fun n hn => hn
  refine ⟨fun n hn hmem => ?_,
    run_stages_invoked_head env bp execution_order st0,
    run_stages_gate_preserved env bp execution_order hsub st0⟩
  rcases run_stages_invoked_spec env bp st0.completed_agents execution_order
    hsub st0 (fun m hm => hm) n hn with h | ⟨hrep', hnpre⟩
  · exact h hmem
  · exact hnpre (hrp (hrep' ▸ hmem))

/-- A prescreen environment whose parsed analysis rejects the subject. -/
def stub_prescreen_fail : PrescreenEnv :=
  { search := .ok []
    analysis := .ok
      { passed := some false, confidence := some (8 / 10),
        reason := some "空壳公司", positive_factors := none,
        negative_factors := none, information_quality := none,
        recommendation := none, key_findings := none }
    rejection_report := fun _ _ _ => "拒绝报告" }

/-- A prescreen environment whose parsed analysis passes the subject. -/
def stub_prescreen_pass : PrescreenEnv :=
  { search := .ok []
    analysis := .ok
      { passed := some true, confidence := some (9 / 10),
        reason := some "优质公司", positive_factors := none,
        negative_factors := none, information_quality := none,
        recommendation := none, key_findings := none }
    rejection_report := fun _ _ _ => "拒绝报告" }

/-- A prescreen environment whose search raises. -/
def stub_prescreen_raise : PrescreenEnv :=
  { search := .error ("网络错误", [])
    analysis := .error "未执行"
    rejection_report := fun _ _ _ => "拒绝报告" }

/-- A DD environment with a mid-scale default analysis. -/
def stub_dd_env : DDEnv :=
  { srcs := [], analysis := { scores := [("overall", 5)], rationale := [] },
    extras := [] }

/-- A checkpointed state of a gate-failed run, as the coordinator saves it
right after the gate stage. -/
def c1_resume_state : VState :=
  { company_name := "Acme"
    bp_file_path := none
    run_id := "run-9"
    prescreen_passed := false
    prescreen_reason := "空壳公司"
    prescreen_confidence := some (8 / 10)
    scores := [("prescreen", [("overall", 3), ("confidence", 8 / 10)])]
    rationale := [("prescreen", [("reason", .jstr "空壳公司")])]
    sources := []
    bp_extracted_data := .jobj []
    cross_check_results := .jobj []
    completed_agents := ["prescreen"]
    current_agent := "prescreen"
    final_report := some "拒绝报告"
    created_at := some ⟨2024, 1, 2, 3, 4, 5, 0⟩
    updated_at := some ⟨2024, 1, 2, 3, 4, 5, 0⟩ }

/-- A full collaborator environment whose gate rejects, with the checkpoint
store holding the gate-failed snapshot under `run-9`. -/
def stub_workflow_env : WorkflowEnv :=
  { checkpoint_enabled := true
    checkpoint_store := fun rid =>
      if rid = "run-9" then some (serialize_state c1_resume_state) else none
    fresh_run_id := "fresh-1"
    init_now := ⟨2024, 1, 2, 3, 4, 5, 0⟩
    nowFor := fun _ => ⟨2024, 1, 2, 3, 4, 6, 0⟩
    prescreenEnv := stub_prescreen_fail
    bpEnv := { file_exists := false, outcome := .ok none }
    industryEnv := stub_dd_env
    teamEnv := stub_dd_env
    finEnv := stub_dd_env
    riskEnv := stub_dd_env
    crossEnv := { srcs := [], result := .jobj [] }
    reportEnv :=
      { simple_rejection := fun _ _ => "简易拒绝报告",
        comprehensive := fun _ _ => "完整报告" } }

/-- The gate-rejecting environment with a passing gate instead. -/
def stub_workflow_env_pass : WorkflowEnv :=
  { stub_workflow_env with prescreenEnv := stub_prescreen_pass }

/-- The gate-rejecting environment with a raising gate search instead. -/
def stub_workflow_env_raise : WorkflowEnv :=
  { stub_workflow_env with prescreenEnv := stub_prescreen_raise }

/-- Witness for C1 in both the fresh and the resumed gate-failed runs. -/
theorem C1_gate_short_circuit_witness :
    ("report_generator" ∈
        (workflow_run stub_workflow_env "Acme" none none).invoked ∧
      (workflow_run stub_workflow_env "Acme" none
        none).state.final_report.isSome = true ∧
      alGet? (workflow_run stub_workflow_env "Acme" none none).state.scores
        "industry" = none) ∧
    ("report_generator" ∈
        (workflow_run stub_workflow_env "Acme" none (some "run-9")).invoked ∧
      (workflow_run stub_workflow_env "Acme" none
        (some "run-9")).state.final_report.isSome = true ∧
      alGet? (workflow_run stub_workflow_env "Acme" none
        (some "run-9")).state.scores "industry" = none) := by
  have hdd0 : ∀ cat ∈ ddCats, alGet? c1_resume_state.scores cat = none ∧
      alGet? c1_resume_state.rationale cat = none := by
    intro cat hcat
    rcases (by simpa [ddCats] using hcat : cat = "industry" ∨ cat = "team" ∨
      cat = "financial" ∨ cat = "risk") with rfl | rfl | rfl | rfl <;>
      exact ⟨rfl, rfl⟩
  have h1 := (C1_gate_short_circuit stub_workflow_env "Acme" none).1
    (by exact rfl)
  have h2 := (C1_gate_short_circuit stub_workflow_env "Acme" none).2
    (some "run-9") c1_resume_state rfl rfl rfl rfl (by simp [c1_resume_state])
    (by simp [c1_resume_state]) hdd0
  exact ⟨⟨h1.2.1, h1.2.2, (h1.1 "industry" (by simp [ddCats])).1⟩,
    ⟨h2.2.1, h2.2.2, (h2.1 "industry" (by simp [ddCats])).1⟩⟩

/-- Witness for C2 on the resumed gate-failed run. -/
theorem C2_resume_semantics_witness :
    (∀ n ∈ (workflow_run stub_workflow_env "Acme" none
        (some "run-9")).invoked, n ∉ c1_resume_state.completed_agents) ∧
    ((workflow_run stub_workflow_env "Acme" none
        (some "run-9")).invoked.head? =
      execution_order.find?
        (fun m => !(c1_resume_state.completed_agents.contains m) &&
          !((m == "bp_parser") && pyFalsyOptStr none))) ∧
    (workflow_run stub_workflow_env "Acme" none
        (some "run-9")).state.prescreen_passed
      = c1_resume_state.prescreen_passed := by
  have h := C2_resume_semantics stub_workflow_env "Acme" none (some "run-9")
    c1_resume_state rfl rfl rfl (fun _ => by simp [c1_resume_state])
  exact ⟨h.1, h.2.1, h.2.2 (by simp [c1_resume_state])⟩

/-- Claim C8 counterexample: on a gate-failing analysis, the gate stage
itself writes `final_report` (a rejection report), so `final_report` is not
set only by the terminal reporting stage. -/
theorem C8_final_report_counterexample :
    (create_initial_state "Acme" none (some "r1") "r1"
      ⟨2024, 1, 2, 3, 4, 5, 0⟩).final_report = none ∧
    (prescreen_execute stub_prescreen_fail
      (create_initial_state "Acme" none (some "r1") "r1"
        ⟨2024, 1, 2, 3, 4, 5, 0⟩)).final_report = some "拒绝报告" ∧
    "prescreen" ≠ "report_generator" :=
  ⟨rfl, rfl, by decide⟩

theorem prescreen_execute_passed_final (env : PrescreenEnv) (st : VState)
    (srcs : List SearchSource) (a : PrescreenAnalysis)
    (hs : env.search = .ok srcs) (ha : env.analysis = .ok a)
    (hp : a.passed.getD false = true) :
    (prescreen_execute env st).final_report = st.final_report := by
  unfold prescreen_execute
  rw [hs, ha]
  unfold prescreen_update_state
  dsimp only
  rw [hp]
  simp

/-- Claim C8 (amended): `final_report` is written only by the gate stage
(which writes a rejection report when its parsed analysis rejects the
subject) and by the terminal reporting stage: every other stage preserves
it, the gate preserves it whenever its analysis passes, and the reporting
stage is the last stage of the execution order (so once it sets
`final_report` the run is terminal). -/
theorem C8_final_report_amended (env : WorkflowEnv) (name : String)
    (st : VState)
    (hname : name ∈ ["bp_parser", "industry_dd", "team_dd", "fin_dd",
      "risk_dd", "cross_check"]) :
    (invoke_stage env name st).final_report = st.final_report ∧
    (∀ srcs a, env.prescreenEnv.search = .ok srcs →
      env.prescreenEnv.analysis = .ok a → a.passed.getD false = true →
      (invoke_stage env "prescreen" st).final_report = st.final_report) ∧
    execution_order.getLast? = some "report_generator" := by
  refine ⟨?_, fun srcs a hs ha hp => ?_, rfl⟩
  · have hmem : name ∈ execution_order := by
      rcases (by simpa using hname : name = "bp_parser" ∨
        name = "industry_dd" ∨ name = "team_dd" ∨ name = "fin_dd" ∨
        name = "risk_dd" ∨ name = "cross_check") with
        rfl | rfl | rfl | rfl | rfl | rfl <;> simp [execution_order]
    have hne1 : name ≠ "prescreen" := by
      rcases (by simpa using hname : name = "bp_parser" ∨
        name = "industry_dd" ∨ name = "team_dd" ∨ name = "fin_dd" ∨
        name = "risk_dd" ∨ name = "cross_check") with
        rfl | rfl | rfl | rfl | rfl | rfl <;> decide
    have hne2 : name ≠ "report_generator" := by
      rcases (by simpa using hname : name = "bp_parser" ∨
        name = "industry_dd" ∨ name = "team_dd" ∨ name = "fin_dd" ∨
        name = "risk_dd" ∨ name = "cross_check") with
        rfl | rfl | rfl | rfl | rfl | rfl <;> decide
    exact (invoke_stage_effects env name hmem st).2.2.2.2.1 hne1 hne2
  · have hg := invoke_fields_generic env "prescreen"
      (prescreen_execute env.prescreenEnv) rfl st
      (prescreen_execute_completed env.prescreenEnv _)
    rw [hg.2.2.2.2.1]
    exact prescreen_execute_passed_final env.prescreenEnv _ srcs a hs ha hp

/-- Witness for C8 (amended): a non-terminal stage and a passing gate leave
`final_report` untouched on a concrete state. -/
theorem C8_final_report_amended_witness :
    (invoke_stage stub_workflow_env_pass "bp_parser"
      c1_resume_state).final_report = c1_resume_state.final_report ∧
    (invoke_stage stub_workflow_env_pass "prescreen"
      c1_resume_state).final_report = c1_resume_state.final_report := by
  have h := C8_final_report_amended stub_workflow_env_pass "bp_parser"
    c1_resume_state (by simp)
  exact ⟨h.1, h.2.1 [] _ rfl rfl rfl⟩

/-- Claim C10: when the gate stage's search or analysis raises internally,
the gate fails closed: `prescreen_passed` is false with the default low
score 3.0 recorded, the exception is not propagated to the stage wrapper
(the transform stays total), the gate stage is still marked completed, and a
later resume never re-invokes a completed gate. -/
theorem C10_gate_fails_closed (env : WorkflowEnv) (st : VState) (e : String)
    (herr : (∃ ps, env.prescreenEnv.search = .error (e, ps)) ∨
      ((∃ srcs, env.prescreenEnv.search = .ok srcs) ∧
        env.prescreenEnv.analysis = .error e)) :
    (invoke_stage env "prescreen" st).prescreen_passed = false ∧
    (alGet? (invoke_stage env "prescreen" st).scores "prescreen").bind
      (fun m => alGet? m "overall") = some 3 ∧
    agent_tf env "prescreen" st
      = .ok (prescreen_execute env.prescreenEnv st) ∧
    "prescreen" ∈ (invoke_stage env "prescreen" st).completed_agents ∧
    (∀ bp names st2, "prescreen" ∈ st2.completed_agents →
      (∀ n ∈ names, n ∈ execution_order) →
      "prescreen" ∉ (run_stages env bp names st2).invoked) := by
  have hbody : ∀ s : VState,
      (prescreen_execute env.prescreenEnv s).prescreen_passed = false ∧
      alGet? (prescreen_execute env.prescreenEnv s).scores "prescreen"
        = some [("overall", 3), ("confidence", 3 / 10)] := by
    intro s
    unfold prescreen_execute
    rcases herr with ⟨ps, hs⟩ | ⟨⟨srcs, hs⟩, ha⟩
    · rw [hs]
      exact ⟨rfl, alGet?_alSet_self _ _ _⟩
    · rw [hs, ha]
      exact ⟨rfl, alGet?_alSet_self _ _ _⟩
  have hg := invoke_fields_generic env "prescreen"
    (prescreen_execute env.prescreenEnv) rfl st
    (prescreen_execute_completed env.prescreenEnv _)
  refine ⟨hg.2.2.2.1.trans (hbody _).1, ?_, rfl, hg.2.1,
    fun bp names st2 hpre2 hsub hmem => ?_⟩
  · rw [hg.2.2.2.2.2.1, (hbody _).2]
    rfl
  · rcases run_stages_invoked_spec env bp ["prescreen"] names hsub st2
      (fun n hn => by
        have hn' : n = "prescreen" := by simpa using hn
        subst hn'
        exact hpre2) "prescreen" hmem
      with h | ⟨h, _⟩
    · exact h (by simp)
    · exact absurd h (by decide)

/-- Witness for C10 at a raising-search environment and a fresh state. -/
theorem C10_gate_fails_closed_witness :
    (invoke_stage stub_workflow_env_raise "prescreen"
      (create_initial_state "Acme" none none "f1"
        ⟨2024, 1, 2, 3, 4, 5, 0⟩)).prescreen_passed = false ∧
    "prescreen" ∈ (invoke_stage stub_workflow_env_raise "prescreen"
      (create_initial_state "Acme" none none "f1"
        ⟨2024, 1, 2, 3, 4, 5, 0⟩)).completed_agents := by
  have h := C10_gate_fails_closed stub_workflow_env_raise
    (create_initial_state "Acme" none none "f1" ⟨2024, 1, 2, 3, 4, 5, 0⟩)
    "网络错误" (Or.inl ⟨[], rfl⟩)
  exact ⟨h.1, h.2.2.2.1⟩

end VentureLens
